import Mathlib

/-!
Verification development for the hybrid ranking / recommendation engine of the
`ai-assistant-rag` repository.  The Python sources (`upload_api.py`, `utils.py`,
`contextual_recommendations.py`, `collaborative_filtering.py`,
`collaborative_filtering_simple.py`) are shallowly embedded below: pure Python
functions become Lean functions over `ℚ`/`String`/`List`, Python's stable
`list.sort` becomes a stable insertion sort, Redis-backed operations become
functions in the `Except Unit` monad over an abstract store record, and the
float-valued haversine/rounding primitives are abstracted as function
parameters (their numeric content is irrelevant to the properties proved).
-/

/-! ## Basic character/string helpers (models of the Python `str` methods used) -/

/-- Characters stripped by Python's `str.strip()` (the ones relevant here). -/
def isSpaceChar (c : Char) : Bool := c == ' ' || c == '\t' || c == '\n' || c == '\r'

/-- Model of Python `str.strip()` on a character list. -/
def stripList (cs : List Char) : List Char :=
  ((cs.dropWhile isSpaceChar).reverse.dropWhile isSpaceChar).reverse

/-- Model of Python `str.strip()`. -/
def pyStrip (s : String) : String := ⟨stripList s.data⟩

/-- The double-quote character (written via its code point). -/
def quoteChar : Char := Char.ofNat 34

/-- Model of Python `str.strip('"')` on a character list. -/
def stripQuotesList (cs : List Char) : List Char :=
  ((cs.dropWhile (· == quoteChar)).reverse.dropWhile (· == quoteChar)).reverse

/-- Does `hay` start with `needle`? -/
def listStartsWith : List Char → List Char → Bool
  | [], _ => true
  | _ :: _, [] => false
  | a :: as, b :: bs => a == b && listStartsWith as bs

/-- Model of Python's substring test `needle in hay` on character lists. -/
def containsL (needle : List Char) : List Char → Bool
  | [] => listStartsWith needle []
  | c :: cs => listStartsWith needle (c :: cs) || containsL needle cs

/-- Model of Python's substring test `needle in hay`. -/
def containsSub (needle hay : String) : Bool := containsL needle.data hay.data

/-- Lower-casing of a character list (ASCII, as used by the repository's data). -/
def lowerL (cs : List Char) : List Char := cs.map Char.toLower

/-- Model of Python `str.lower()`. -/
def lowerStr (s : String) : String := ⟨lowerL s.data⟩

/-- Model of Python `str.split(sep)` for a one-character separator:
`splitOnChar ',' "a,b,"` gives `["a","b",""]` and `splitOnChar ',' ""` gives `[""]`. -/
def splitOnChar (sep : Char) : List Char → List (List Char)
  | [] => [[]]
  | c :: rest =>
    let r := splitOnChar sep rest
    if c == sep then [] :: r
    else
      match r with
      | [] => [[c]]
      | h :: t => (c :: h) :: t

/-- Model of Python `line.split(":", 1)`: split at the first colon, `none` when
there is no colon (the caller skips such lines). -/
def splitFirstColon : List Char → Option (List Char × List Char)
  | [] => none
  | c :: cs =>
    if c == ':' then some ([], cs)
    else
      match splitFirstColon cs with
      | some (a, b) => some (c :: a, b)
      | none => none

/-- Model of `str.replace(" ", "_")`. -/
def spaceToUnderscore (cs : List Char) : List Char :=
  cs.map (fun c => if c == ' ' then '_' else c)

/-- Key canonicalisation in the key:value parser: `k.strip().lower().replace(" ", "_")`. -/
def canonKeyL (cs : List Char) : List Char := spaceToUnderscore (lowerL (stripList cs))

/-! ## Decimal parsing (model of Python `float(...)` on plain decimal strings) -/

/-- All characters are ASCII digits. -/
def allDigits (cs : List Char) : Bool := cs.all Char.isDigit

/-- Numeric value of a digit string. -/
def natOfDigits (cs : List Char) : ℕ := cs.foldl (fun n c => 10 * n + (c.toNat - 48)) 0

/-- Unsigned decimal literal: digits with an optional single point
(`"12"`, `"12.5"`, `"12."`, `".5"`). -/
def parseUnsignedDec (cs : List Char) : Option ℚ :=
  match splitOnChar '.' cs with
  | [ip] => if !ip.isEmpty && allDigits ip then some (natOfDigits ip) else none
  | [ip, fp] =>
    if (!ip.isEmpty || !fp.isEmpty) && allDigits ip && allDigits fp then
      some ((natOfDigits ip : ℚ) + (natOfDigits fp : ℚ) / 10 ^ fp.length)
    else none
  | _ => none

/-- Model of Python `float(s)` restricted to plain signed decimal literals with
surrounding whitespace (the shapes the repository's data files produce);
exponents, `inf`/`nan` and underscores are outside the model. `none` models a
raised `ValueError`. -/
def parseDecimal (s : String) : Option ℚ :=
  match (stripList s.data) with
  | [] => none
  | c :: cs =>
    if c == '-' then (parseUnsignedDec cs).map Neg.neg
    else if c == '+' then parseUnsignedDec cs
    else parseUnsignedDec (c :: cs)

/-- `utils.parse_lat_lng`: split on a comma into exactly two parts and parse
both as floats; `none` when anything fails. -/
def parse_lat_lng (s : String) : Option (ℚ × ℚ) :=
  match (splitOnChar ',' (stripList s.data)).map (fun p => (⟨p⟩ : String)) with
  | [a, b] =>
    match parseDecimal (pyStrip a), parseDecimal (pyStrip b) with
    | some x, some y => some (x, y)
    | _, _ => none
  | _ => none

/-- `utils.validate_coordinates`: `-90 <= lat <= 90 and -180 <= lng <= 180`. -/
def validate_coordinates (lat lng : ℚ) : Bool :=
  decide (-90 ≤ lat) && decide (lat ≤ 90) && decide (-180 ≤ lng) && decide (lng ≤ 180)

/-! ## Stable sorting (model of Python's `list.sort(key=...)`)

Python's sort is a stable ascending sort by key; a stable sorted permutation is
unique, so the insertion sort below (which inserts each element, scanning from
the left, before the first element whose key is `≥` its own — earlier input
elements are inserted later in the fold and hence land before equal keys) has
exactly the same input/output behaviour. -/

/-- Insert `x` into `l`, placing it before the first element of key `≥ key x`. -/
def pyInsertKey {β : Type} (key : β → ℚ) (x : β) : List β → List β
  | [] => [x]
  | y :: ys => if key x ≤ key y then x :: y :: ys else y :: pyInsertKey key x ys

/-- Stable ascending sort by a rational key: model of `list.sort(key=...)`. -/
def pySortByKey {β : Type} (key : β → ℚ) : List β → List β
  | [] => []
  | x :: xs => pyInsertKey key x (pySortByKey key xs)

/-- Generic stable insertion by a boolean "may come before" relation. -/
def pyInsertBy {β : Type} (le : β → β → Bool) (x : β) : List β → List β
  | [] => [x]
  | y :: ys => if le x y then x :: y :: ys else y :: pyInsertBy le x ys

/-- Generic stable sort; used with a reversed comparison to model
`list.sort(key=..., reverse=True)`. -/
def pySortBy {β : Type} (le : β → β → Bool) : List β → List β
  | [] => []
  | x :: xs => pyInsertBy le x (pySortBy le xs)

/-! ## The hybrid ranker: steps 3–7 of `upload_api.search_businesses_vectorized`

A candidate is one parsed business fragment with its attached vector score
(step 2 of the function).  The haversine distance `utils.calculate_distance`
and Python's `round(_, 2)` are float-valued; they are abstracted as the
function parameters `hav` and `round2` (no property proved here depends on
their numeric content). -/

structure Business where
  name : String
  business_name : String
  latitude : ℚ
  longitude : ℚ
  lat_long : String
  business_category : String
  business_tags : String
  vector_score : ℚ
  source_path : String
  distance_km : ℚ
deriving DecidableEq

/-- The locality-cue substrings of `search_businesses_vectorized`. -/
def near_cues : List String := ["near me", "nearby", "closest", "around me", "near "]

/-- `auto_distance_bias = any(cue in query_lower for cue in near_cues)`. -/
def autoDistanceBias (query : String) : Bool :=
  near_cues.any (fun cue => containsSub cue (lowerStr query))

/-- Weight resolution of `search_businesses_vectorized` (lines 512–532):
`sort_mode` overrides first, then an explicit `distance_weight` (clamped into
`[0,1]`), then the locality-cue heuristic. -/
def resolveWeights (sort_mode : Option String) (distance_weight : Option ℚ)
    (query : String) : ℚ × ℚ :=
  if sort_mode = some "distance" then (0, 1)
  else if sort_mode = some "relevance" then (1, 0)
  else
    match distance_weight with
    | some w => (max 0 (min (1 - w) 1), max 0 (min w 1))
    | none => if autoDistanceBias query then (1/2, 1/2) else (7/10, 3/10)

/-- Deduplication key: `f"{business_name}_{lat_long}"`. -/
def dedupKey (b : Business) : String := b.business_name ++ "_" ++ b.lat_long

/-- One step of the duplicate-removal dict loop: first occurrence of a key is
inserted; a later occurrence replaces it (in place) only when its vector score
is strictly lower. -/
def dedupStep (acc : List Business) (b : Business) : List Business :=
  if acc.any (fun x => dedupKey x == dedupKey b) then
    acc.map (fun x =>
      if dedupKey x == dedupKey b && decide (b.vector_score < x.vector_score) then b else x)
  else acc ++ [b]

/-- Step 3 of `search_businesses_vectorized`: remove duplicates, keeping (per
key) the fragment with the better (lower) vector score, in first-occurrence
order (a Python dict preserves insertion order). -/
def dedupBusinesses (l : List Business) : List Business := l.foldl dedupStep []

/-- Step 4: compute each record's distance, store it rounded in `distance_km`,
and drop records farther than `max_distance_km` unless `max_distance_km ≥
10000` (which the code treats as "unlimited" and skips the cutoff). -/
def distanceFilterMap (hav : ℚ → ℚ → ℚ → ℚ → ℚ) (round2 : ℚ → ℚ)
    (user_lat user_lng max_distance_km : ℚ) (bs : List Business) : List Business :=
  bs.filterMap (fun b =>
    let d := hav user_lat user_lng b.latitude b.longitude
    let b' := { b with distance_km := round2 d }
    if 10000 ≤ max_distance_km then some b'
    else if d ≤ max_distance_km then some b' else none)

/-- Step 5a: category filter (case-insensitive substring; falsy filter = keep all). -/
def categoryFilter (category_filter : Option String) (bs : List Business) : List Business :=
  match category_filter with
  | none => bs
  | some c =>
    if c = "" then bs
    else bs.filter (fun b => containsSub (lowerStr c) (lowerStr b.business_category))

/-- Step 5b: tag filter (any tag, case-insensitive substring; falsy filter = keep all). -/
def tagFilter (tag_filters : Option (List String)) (bs : List Business) : List Business :=
  match tag_filters with
  | none => bs
  | some ts =>
    if ts.isEmpty then bs
    else bs.filter (fun b => ts.any (fun t => containsSub (lowerStr t) (lowerStr b.business_tags)))

/-- `max(b.get("distance_km", 0) for b in filtered) if filtered else 1`. -/
def maxObservedDistance (bs : List Business) : ℚ :=
  match bs with
  | [] => 1
  | b :: rest => rest.foldl (fun m x => max m x.distance_km) b.distance_km

/-- The `sort_key` closure of step 6: weighted sum of the vector score and the
normalised (stored, rounded) distance. -/
def rankKey (rel_w dist_w max_distance_km maxObs : ℚ) (b : Business) : ℚ :=
  let normalized :=
    if 10000 ≤ max_distance_km then b.distance_km / max maxObs 1
    else b.distance_km / max max_distance_km 1
  rel_w * b.vector_score + dist_w * normalized

/-- Steps 3–5: the deduplicated, distance-annotated, filter-matching pool that
step 6 sorts. -/
def rankPool (hav : ℚ → ℚ → ℚ → ℚ → ℚ) (round2 : ℚ → ℚ)
    (user_lat user_lng max_distance_km : ℚ)
    (category_filter : Option String) (tag_filters : Option (List String))
    (candidates : List Business) : List Business :=
  tagFilter tag_filters (categoryFilter category_filter
    (distanceFilterMap hav round2 user_lat user_lng max_distance_km
      (dedupBusinesses candidates)))

/-- Step 6: the pool sorted ascending by the hybrid key (stable sort). -/
def rankSorted (hav : ℚ → ℚ → ℚ → ℚ → ℚ) (round2 : ℚ → ℚ) (query : String)
    (user_lat user_lng max_distance_km : ℚ)
    (category_filter : Option String) (tag_filters : Option (List String))
    (distance_weight : Option ℚ) (sort_mode : Option String)
    (candidates : List Business) : List Business :=
  let pool := rankPool hav round2 user_lat user_lng max_distance_km
      category_filter tag_filters candidates
  let w := resolveWeights sort_mode distance_weight query
  pySortByKey (rankKey w.1 w.2 max_distance_km (maxObservedDistance pool)) pool

/-- Steps 3–7 of `search_businesses_vectorized` (everything after retrieval
and score attachment): deduplicate, annotate/filter by distance, filter by
category and tags, sort by the hybrid key, and truncate to `limit`. -/
def search_businesses_vectorized_rank (hav : ℚ → ℚ → ℚ → ℚ → ℚ) (round2 : ℚ → ℚ)
    (query : String) (user_lat user_lng max_distance_km : ℚ)
    (category_filter : Option String) (tag_filters : Option (List String))
    (limit : ℕ) (distance_weight : Option ℚ) (sort_mode : Option String)
    (candidates : List Business) : List Business :=
  (rankSorted hav round2 query user_lat user_lng max_distance_km
    category_filter tag_filters distance_weight sort_mode candidates).take limit

/-! ## `upload_api.parse_business_from_text`

A retrieval payload is modelled as a `TextBlob`: the raw text together with
the outcome of `json.loads` on it (`none` models a `JSONDecodeError`, in which
case the code falls through to the key:value and CSV parsers on the raw
text).  JSON values are modelled by `JVal` (strings, numbers, null — the
shapes the repository's data produces).  The whole parser runs in
`Except Unit`: `.error ()` models an uncaught Python exception. -/

inductive JVal where
  | jstr (s : String)
  | jnum (q : ℚ)
  | jnull
deriving DecidableEq

inductive PyJson where
  | jdict (fields : List (String × JVal))
  | jlist (items : List (List (String × JVal)))
  | jscalar
deriving DecidableEq

structure TextBlob where
  raw : String
  asJson : Option PyJson
deriving DecidableEq

/-- The canonical business dictionary produced by every branch of
`parse_business_from_text`. -/
structure ParsedBiz where
  name : String
  business_name : String
  latitude : ℚ
  longitude : ℚ
  lat_long : String
  business_category : String
  business_tags : String
deriving DecidableEq

/-- Raw dict lookup (`item[k]` position untouched; Python dict keys are unique). -/
def getJ (m : List (String × JVal)) (k : String) : Option JVal :=
  match m with
  | [] => none
  | p :: rest => if p.1 = k then some p.2 else getJ rest k

/-- `item.get(k)`: absent keys and JSON `null` values both give Python `None`. -/
def getPy (m : List (String × JVal)) (k : String) : Option JVal :=
  match getJ m k with
  | some .jnull => none
  | some v => some v
  | none => none

/-- Python truthiness of a JSON value. -/
def jTruthy : JVal → Bool
  | .jstr s => !(s == "")
  | .jnum q => !(q == 0)
  | .jnull => false

/-- Python `a or b or ... or ""`: the first truthy value, else `""`. -/
def firstTruthy : List (Option JVal) → JVal
  | [] => .jstr ""
  | none :: rest => firstTruthy rest
  | some v :: rest => if jTruthy v then v else firstTruthy rest

/-- `.strip()` on the result of an `or`-chain: a truthy non-string value has no
`strip` attribute, so Python raises `AttributeError` (modelled `.error ()`),
which `parse_business_from_text` does not catch. -/
def stripJ : JVal → Except Unit String
  | .jstr s => .ok (pyStrip s)
  | _ => .error ()

/-- The tags value is stored as-is (not stripped, not type-checked) in the
output dictionary; a numeric value is rendered through `floatRepr` here so the
output field stays a string (the claims only exercise string-valued tags). -/
def tagStr (floatRepr : ℚ → String) : JVal → String
  | .jstr s => s
  | .jnum q => floatRepr q
  | .jnull => ""

/-- Python `str(...)` of a JSON value (used in `parse_lat_lng(str(lat_long))`). -/
def strJVal (floatRepr : ℚ → String) : JVal → String
  | .jstr s => s
  | .jnum q => floatRepr q
  | .jnull => "None"

/-- Python `float(...)` of a JSON value; `none` models a raised
`ValueError`/`TypeError` (which the JSON branch catches). -/
def floatOfJVal : JVal → Option ℚ
  | .jnum q => some q
  | .jstr s => parseDecimal s
  | .jnull => none

/-- `if lat is not None: lat = float(lat)` inside the `try`: the outer `some`
is the no-exception case, the inner option is the value (`none` = Python `None`). -/
def floatConv : Option JVal → Option (Option ℚ)
  | none => some none
  | some v =>
    match floatOfJVal v with
    | some q => some (some q)
    | none => none

/-- The truthy `lat_long` value, if any (`item.get("lat_long") or ...`; the
constructed fallback string is only consulted when one coordinate is missing,
in which case it is empty — see lines 276–281). -/
def jsonLatLong (m : List (String × JVal)) : Option JVal :=
  match getPy m "lat_long" with
  | some v => if jTruthy v then some v else none
  | none => none

/-- Coordinate recovery from `lat_long` when `latitude`/`longitude` is
missing. -/
def jsonRecover (floatRepr : ℚ → String) (lat0 lon0 latlong : Option JVal) :
    Option JVal × Option JVal :=
  if lat0.isNone || lon0.isNone then
    match latlong with
    | some v =>
      match parse_lat_lng (strJVal floatRepr v) with
      | some (a, b) => (some (.jnum a), some (.jnum b))
      | none => (lat0, lon0)
    | none => (lat0, lon0)
  else (lat0, lon0)

/-- The guarded float conversion of both coordinates (`except` sets both to
`None`). -/
def jsonCoordPair (p : Option JVal × Option JVal) : Option ℚ × Option ℚ :=
  match floatConv p.1, floatConv p.2 with
  | some x, some y => (x, y)
  | _, _ => (none, none)

/-- The body of the JSON branch's per-item loop (lines 269–299 of
`upload_api.py`): extract and strip the string fields, recover coordinates
from `lat_long` when needed, convert to floats, validate, and build the
canonical record.  `.error ()` models the uncaught `AttributeError` raised by
`.strip()` on a truthy non-string field value. -/
def jsonItemParse (floatRepr : ℚ → String) (m : List (String × JVal)) :
    Except Unit (Option ParsedBiz) := do
  let business_name ← stripJ (firstTruthy [getPy m "business_name", getPy m "business"])
  let name ← stripJ (firstTruthy [getPy m "name", getPy m "owner_name"])
  let category ← stripJ (firstTruthy [getPy m "business_category", getPy m "category"])
  match jsonCoordPair (jsonRecover floatRepr (getPy m "latitude") (getPy m "longitude")
      (jsonLatLong m)) with
  | (some lat, some lon) =>
    if !(business_name == "") && !(category == "") && validate_coordinates lat lon then
      return some { name := name, business_name := business_name,
                    latitude := lat, longitude := lon,
                    lat_long := floatRepr lat ++ "," ++ floatRepr lon,
                    business_category := category,
                    business_tags :=
                      tagStr floatRepr (firstTruthy [getPy m "business_tags", getPy m "tags"]) }
    else return none
  | _ => return none

/-- The JSON branch: a dict yields at most one record, a list of dicts is
processed in order (non-dict list items are skipped by the code and are not
represented), any other JSON value yields nothing. -/
def jsonBranch (floatRepr : ℚ → String) : PyJson → Except Unit (List ParsedBiz)
  | .jdict m => do
    match ← jsonItemParse floatRepr m with
    | some b => return [b]
    | none => return []
  | .jlist ms =>
    ms.foldlM (fun acc m => do
      match ← jsonItemParse floatRepr m with
      | some b => return acc ++ [b]
      | none => return acc) []
  | .jscalar => return []

/-- Python dict assignment `kv[k] = v`: replace in place or append. -/
def kvSet (m : List (String × String)) (k v : String) : List (String × String) :=
  if m.any (fun p => p.1 == k) then m.map (fun p => if p.1 == k then (k, v) else p)
  else m ++ [(k, v)]

/-- One line of the key:value loop: strip the line, skip it when empty or
colon-free, else split at the first colon, canonicalise the key, strip the
value. -/
def kvStep (kv : List (String × String)) (lineL : List Char) : List (String × String) :=
  if (stripList lineL).isEmpty then kv
  else
    match splitFirstColon (stripList lineL) with
    | none => kv
    | some (k, v) => kvSet kv ⟨canonKeyL k⟩ ⟨stripList v⟩

/-- The key:value line loop over the newline-split raw text. -/
def kvPairs (raw : String) : List (String × String) :=
  (splitOnChar '\n' raw.data).foldl kvStep []

/-- `kv.get(k)`. -/
def kvGet (m : List (String × String)) (k : String) : Option String :=
  match m with
  | [] => none
  | p :: rest => if p.1 = k then some p.2 else kvGet rest k

/-- `kv.get(k, default)`. -/
def kvGetD (m : List (String × String)) (k d : String) : String := (kvGet m k).getD d

/-- The key:value branch (lines 307–346): `none` when the validity check fails
(in which case the code falls through to the CSV branch). -/
def kvBranchParse (floatRepr : ℚ → String) (raw : String) : Option ParsedBiz :=
  let kv := kvPairs raw
  let business_name := kvGet kv "business_name"
  let name := kvGetD kv "owner_name" ""
  let category := kvGet kv "business_category"
  let tags := kvGetD kv "business_tags" ""
  let lat_str := kvGetD kv "latitude" ""
  let lon_str := kvGetD kv "longitude" ""
  let lat_long := kvGetD kv "lat_long" ""
  let c0 : Option ℚ × Option ℚ :=
    if !(lat_str == "") && !(lon_str == "") then
      match parseDecimal lat_str, parseDecimal lon_str with
      | some a, some b => (some a, some b)
      | _, _ => (none, none)
    else (none, none)
  let c1 : Option ℚ × Option ℚ :=
    if (c0.1.isNone || c0.2.isNone) && !(lat_long == "") then
      match parse_lat_lng lat_long with
      | some (a, b) => (some a, some b)
      | none => c0
    else c0
  match business_name, category, c1.1, c1.2 with
  | some bn, some cat, some lat, some lon =>
    if !(bn == "") && !(cat == "") && validate_coordinates lat lon then
      some { name := name, business_name := bn, latitude := lat, longitude := lon,
             lat_long := floatRepr lat ++ "," ++ floatRepr lon,
             business_category := cat, business_tags := tags }
    else none
  | _, _, _, _ => none

/-- The six-column CSV row: `name,business_name,lat,lon,category,tags`
(extra columns beyond the sixth are dropped by the code). -/
def csvSixParse (floatRepr : ℚ → String) (parts : List String) : Option ParsedBiz :=
  let name := parts.getD 0 ""
  let business_name := parts.getD 1 ""
  let latitude := parts.getD 2 ""
  let longitude := parts.getD 3 ""
  let category := parts.getD 4 ""
  let tags := parts.getD 5 ""
  if name == "" || business_name == "" || latitude == "" || longitude == "" || category == "" then
    none
  else
    match parseDecimal latitude, parseDecimal longitude with
    | some lat, some lon =>
      if validate_coordinates lat lon then
        some { name := name, business_name := business_name, latitude := lat, longitude := lon,
               lat_long := floatRepr lat ++ "," ++ floatRepr lon,
               business_category := category, business_tags := tags }
      else none
    | _, _ => none

/-- The five-column CSV row: `name,business_name,lat_long,category,tags`. -/
def csvFiveParse (floatRepr : ℚ → String) (parts : List String) : Option ParsedBiz :=
  let name := parts.getD 0 ""
  let business_name := parts.getD 1 ""
  let lat_long := parts.getD 2 ""
  let category := parts.getD 3 ""
  let tags := parts.getD 4 ""
  match parse_lat_lng lat_long with
  | none => none
  | some (lat, lon) =>
    if name == "" || business_name == "" || category == "" then none
    else if validate_coordinates lat lon then
      some { name := name, business_name := business_name, latitude := lat, longitude := lon,
             lat_long := floatRepr lat ++ "," ++ floatRepr lon,
             business_category := category, business_tags := tags }
    else none

/-- One CSV-like line: split on commas, strip whitespace and quotes from each
part, then dispatch on the column count. -/
def csvLineParse (floatRepr : ℚ → String) (l : List Char) : Option ParsedBiz :=
  let parts := (splitOnChar ',' l).map (fun p => (⟨stripQuotesList (stripList p)⟩ : String))
  if parts.length ≥ 6 then csvSixParse floatRepr parts
  else if parts.length ≥ 5 then csvFiveParse floatRepr parts
  else none

/-- The CSV fallback branch (lines 349–402): per line, skip empty lines and
the `name,business_name,lat_long` header, collect valid rows. -/
def csvBranch (floatRepr : ℚ → String) (raw : String) : List ParsedBiz :=
  (splitOnChar '\n' raw.data).foldl (fun acc lineL =>
    let l := stripList lineL
    if l.isEmpty then acc
    else if containsL "name,business_name,lat_long".data (lowerL l) then acc
    else
      match csvLineParse floatRepr l with
      | some b => acc ++ [b]
      | none => acc) []

/-- The key:value branch runs only when both marker substrings occur in the
raw text; an invalid key:value block falls through to the CSV branch. -/
def kvOrCsv (floatRepr : ℚ → String) (raw : String) : List ParsedBiz :=
  if containsL "business_name:".data raw.data &&
     containsL "business_category:".data raw.data then
    match kvBranchParse floatRepr raw with
    | some b => [b]
    | none => csvBranch floatRepr raw
  else csvBranch floatRepr raw

/-- `upload_api.parse_business_from_text`: strip the text, return `[]` when
empty; try the JSON branch first (when `json.loads` succeeded) and keep its
records if any; otherwise fall through to the key:value and CSV branches. -/
def parse_business_from_text (floatRepr : ℚ → String) (t : TextBlob) :
    Except Unit (List ParsedBiz) :=
  let raw := pyStrip t.raw
  if raw == "" then .ok []
  else
    match t.asJson with
    | some j => do
      let bs ← jsonBranch floatRepr j
      if bs.isEmpty then return kvOrCsv floatRepr raw
      else return bs
    | none => .ok (kvOrCsv floatRepr raw)

/-! ## `contextual_recommendations.py`: contextual factors and re-ranking -/

inductive TimeOfDay where
  | EARLY_MORNING | MORNING | LATE_MORNING | LUNCH | AFTERNOON
  | EARLY_EVENING | EVENING | NIGHT | LATE_NIGHT
deriving DecidableEq

/-- `get_time_of_day`: bucket boundaries by local hour. -/
def get_time_of_day (hour : ℕ) : TimeOfDay :=
  if 5 ≤ hour ∧ hour < 8 then .EARLY_MORNING
  else if 8 ≤ hour ∧ hour < 11 then .MORNING
  else if 11 ≤ hour ∧ hour < 12 then .LATE_MORNING
  else if 12 ≤ hour ∧ hour < 14 then .LUNCH
  else if 14 ≤ hour ∧ hour < 17 then .AFTERNOON
  else if 17 ≤ hour ∧ hour < 19 then .EARLY_EVENING
  else if 19 ≤ hour ∧ hour < 21 then .EVENING
  else if 21 ≤ hour ∧ hour < 24 then .NIGHT
  else .LATE_NIGHT

/-- The `boosted` table of `self.time_preferences`. -/
def timeBoost : TimeOfDay → List (String × ℚ)
  | .EARLY_MORNING =>
    [("coffee shop", 2), ("bakery", 9/5), ("gym", 3/2), ("breakfast restaurant", 17/10)]
  | .MORNING =>
    [("coffee shop", 9/5), ("business services", 3/2), ("breakfast restaurant", 3/2)]
  | .LATE_MORNING => [("shopping mall", 13/10), ("brunch restaurant", 8/5)]
  | .LUNCH =>
    [("restaurant", 9/5), ("fast food", 8/5), ("cafe", 7/5), ("lunch specials", 2)]
  | .AFTERNOON => [("shopping mall", 7/5), ("retail", 13/10), ("coffee shop", 6/5)]
  | .EARLY_EVENING => [("restaurant", 8/5), ("grocery store", 7/5), ("happy hour", 9/5)]
  | .EVENING =>
    [("restaurant", 17/10), ("entertainment", 3/2), ("bar", 7/5), ("cinema", 8/5)]
  | .NIGHT => [("bar", 9/5), ("entertainment", 8/5), ("late night food", 17/10)]
  | .LATE_NIGHT =>
    [("24hr service", 2), ("late night food", 9/5), ("convenience store", 8/5)]

/-- The `avoid` table of `self.time_preferences`. -/
def timeAvoid : TimeOfDay → List String
  | .EARLY_MORNING => ["bar", "nightclub", "late night food"]
  | .MORNING => ["bar", "nightclub", "dinner restaurant"]
  | .LATE_MORNING => ["bar", "nightclub"]
  | .LUNCH => ["breakfast restaurant", "late night food"]
  | .AFTERNOON => ["bar", "nightclub", "breakfast restaurant"]
  | .EARLY_EVENING => ["breakfast restaurant", "late night food"]
  | .EVENING => ["breakfast restaurant", "business services"]
  | .NIGHT => ["breakfast restaurant", "business services", "office supply"]
  | .LATE_NIGHT => ["business services", "retail", "shopping mall"]

/-- The bucket's string value (`TimeOfDay.value` in the source). -/
def timeOfDayValue : TimeOfDay → String
  | .EARLY_MORNING => "early_morning"
  | .MORNING => "morning"
  | .LATE_MORNING => "late_morning"
  | .LUNCH => "lunch"
  | .AFTERNOON => "afternoon"
  | .EARLY_EVENING => "early_evening"
  | .EVENING => "evening"
  | .NIGHT => "night"
  | .LATE_NIGHT => "late_night"

structure ContextualFactor where
  factor_type : String
  category_boost : List (String × ℚ)
  category_penalty : List (String × ℚ)
  weight : ℚ
  reason : String
deriving DecidableEq

/-- `_generate_time_factor`: boosts from the bucket table, every `avoid`
category penalised with multiplier `0.3`, weight `1.2`.  (The source's reason
string also embeds the wall-clock time; no claim inspects it, so the bucket
value stands in for it.) -/
def timeFactor (t : TimeOfDay) : ContextualFactor :=
  { factor_type := "time", category_boost := timeBoost t,
    category_penalty := (timeAvoid t).map (fun c => (c, 3/10)),
    weight := 6/5, reason := "Time of day: " ++ timeOfDayValue t }

/-- A candidate record as seen by `apply_contextual_factors`: a dictionary
that may or may not carry `distance_km` / `vector_score` keys. -/
structure CBusiness where
  business_category : String
  business_tags : String
  distance_km : Option ℚ
  vector_score : Option ℚ
deriving DecidableEq

/-- `combined_text = f"{category} {tags}".lower()` where both parts are
already lower-cased (`.lower()` is idempotent, so one application suffices). -/
def combinedText (b : CBusiness) : String :=
  ⟨lowerL b.business_category.data ++ ' ' :: lowerL b.business_tags.data⟩

/-- Scan a boost/penalty table for the first entry whose (lower-cased)
category is a substring of the combined text (`break` after the first hit). -/
def findMatch (entries : List (String × ℚ)) (text : String) : Option ℚ :=
  (entries.find? (fun p => containsSub (lowerStr p.1) text)).map Prod.snd

/-- One factor applied to one record: the first matching boost multiplies the
score by `multiplier * weight`, the first matching penalty by
`multiplier / weight`; the factor's reason is recorded when either applied. -/
def applyFactor (b : CBusiness) (acc : ℚ × List String) (f : ContextualFactor) :
    ℚ × List String :=
  let boost := findMatch f.category_boost (combinedText b)
  let s1 := match boost with
            | some m => acc.1 * (m * f.weight)
            | none => acc.1
  let pen := findMatch f.category_penalty (combinedText b)
  let s2 := match pen with
            | some m => s1 * (m / f.weight)
            | none => s1
  (s2, if boost.isSome || pen.isSome then acc.2 ++ [f.reason] else acc.2)

/-- The annotated record built by `apply_contextual_factors`. -/
structure ScoredBusiness where
  base : CBusiness
  contextual_score : ℚ
  applied_factors : List String
  original_score : ℚ
  final_score : ℚ
deriving DecidableEq

/-- `base_metric / score` resolution: prefer `distance_km`, else
`vector_score`, else `1.0`. -/
def baseMetric (b : CBusiness) : ℚ :=
  match b.distance_km with
  | some d => d
  | none =>
    match b.vector_score with
    | some v => v
    | none => 1

/-- The per-record body of `apply_contextual_factors`: fold the factors over a
starting score of `1.0`, then divide the base metric by the contextual score. -/
def scoreBusiness (factors : List ContextualFactor) (b : CBusiness) : ScoredBusiness :=
  let r := factors.foldl (applyFactor b) (1, [])
  { base := b, contextual_score := r.1, applied_factors := r.2,
    original_score :=
      match b.vector_score with
      | some v => v
      | none => match b.distance_km with | some d => d | none => 0,
    final_score := baseMetric b / r.1 }

/-- `apply_contextual_factors` returns its input unscored when either list is
empty; otherwise it scores every record and stable-sorts ascending by
`final_score`. -/
inductive ApplyResult where
  | passthrough (bs : List CBusiness)
  | scored (bs : List ScoredBusiness)
deriving DecidableEq

/-- `contextual_recommendations.apply_contextual_factors`. -/
def apply_contextual_factors (businesses : List CBusiness)
    (factors : List ContextualFactor) : ApplyResult :=
  if factors.isEmpty || businesses.isEmpty then .passthrough businesses
  else .scored (pySortByKey ScoredBusiness.final_score
    (businesses.map (scoreBusiness factors)))

/-- The final scores of a scored result (helper for stating concrete facts). -/
def finalScores : ApplyResult → List ℚ
  | .passthrough _ => []
  | .scored bs => bs.map ScoredBusiness.final_score

/-! ## `collaborative_filtering.py` and `collaborative_filtering_simple.py`

Interactions carry the fields the recommender reads back from the store.
Timestamps are epoch seconds (`ℚ`).  Store operations live in `Except Unit`:
`.error ()` models a raised Redis exception. -/

structure CFInteraction where
  business_id : String
  business_name : String
  category : String
  tags : List String
  rating : ℚ
  timestamp : ℚ
deriving DecidableEq

/-- `get_user_interactions(user, days)`: the stored log restricted to entries
newer than `now - days` (the store's `zrangebyscore cutoff +inf`). -/
def get_user_interactions (log : List CFInteraction) (now : ℚ) (days : ℚ) :
    List CFInteraction :=
  log.filter (fun i => decide (now - days * 86400 ≤ i.timestamp))

/-- `{inter["business_id"]: inter["rating"] for inter in interactions}`:
first-occurrence key order, last assignment wins. -/
def buildRatings (l : List CFInteraction) : List (String × ℚ) :=
  l.foldl (fun acc i =>
    if acc.any (fun p => p.1 == i.business_id) then
      acc.map (fun p => if p.1 == i.business_id then (p.1, i.rating) else p)
    else acc ++ [(i.business_id, i.rating)]) []

/-- `set(user1_ratings) & set(user2_ratings)` (cosine similarity does not
depend on the iteration order, so first-map order is used). -/
def commonKeys (m1 m2 : List (String × ℚ)) : List String :=
  (m1.map Prod.fst).filter (fun k => m2.any (fun p => p.1 == k))

/-- The rating vector of a map restricted to a key list. -/
def ratingsVec (m : List (String × ℚ)) (keys : List String) : List ℚ :=
  keys.map (fun k => (List.lookup k m).getD 0)

/-- Pointwise dot product of two equal-length rating vectors. -/
def dotQ : List ℚ → List ℚ → ℚ
  | a :: v, b :: w => a * b + dotQ v w
  | _, _ => 0

/-- Sum of squares. -/
def sumSq (v : List ℚ) : ℚ := dotQ v v

/-- Cosine similarity of two rating vectors (`sklearn.cosine_similarity` on
two single-row matrices). -/
noncomputable def cosineSim (v w : List ℚ) : ℝ :=
  ((dotQ v w : ℚ) : ℝ) / (Real.sqrt ((sumSq v : ℚ) : ℝ) * Real.sqrt ((sumSq w : ℚ) : ℝ))

/-- `collaborative_filtering.calculate_user_similarity` applied to the two
users' stored logs: 0 when either 30-day window is empty or fewer than two
businesses are shared; otherwise the cosine similarity of the rating vectors
over the shared businesses. -/
noncomputable def calculate_user_similarity (log1 log2 : List CFInteraction) (now : ℚ) : ℝ :=
  let i1 := get_user_interactions log1 now 30
  let i2 := get_user_interactions log2 now 30
  match i1, i2 with
  | [], _ => 0
  | _ :: _, [] => 0
  | _ :: _, _ :: _ =>
    let m1 := buildRatings i1
    let m2 := buildRatings i2
    let common := commonKeys m1 m2
    if common.length < 2 then 0
    else cosineSim (ratingsVec m1 common) (ratingsVec m2 common)

/-- The store operations `collaborative_filtering.py` performs, as pure
functions that may fail (`.error ()` = a raised Redis exception).
`businessLog` is the per-business interaction log projected to its `user_id`
fields (the only field `find_similar_users` reads from it). -/
structure CFStore where
  cachedSimilarUsers : String → Except Unit (Option (List (String × ℝ)))
  userLog : String → Except Unit (List CFInteraction)
  businessLog : String → Except Unit (List String)
  setCachedSimilarUsers : String → List (String × ℝ) → Except Unit Unit

/-- First-occurrence deduplication (model of collecting into a Python `set`;
the set's iteration order is unspecified in Python, first-occurrence order is
used here). -/
def dedupFirst (l : List String) : List String :=
  l.foldl (fun acc s => if acc.contains s then acc else acc ++ [s]) []

/-- `collaborative_filtering.find_similar_users`: serve from cache when
present; require at least 3 recent interactions; collect co-visitors from the
business logs; keep similarities above the 0.1 threshold; sort descending;
truncate; cache.  Any store failure propagates. -/
noncomputable def find_similar_users (store : CFStore) (now : ℚ) (user_id : String)
    (limit : ℕ) : Except Unit (List (String × ℝ)) := do
  let cached ← store.cachedSimilarUsers user_id
  match cached with
  | some r => return r
  | none =>
    let log ← store.userLog user_id
    let inters := get_user_interactions log now 30
    if inters.length < 3 then return []
    else
      let bids := dedupFirst (inters.map (fun i => i.business_id))
      let covis ← bids.foldlM (fun (acc : List String) bid => do
        let bl ← store.businessLog bid
        return acc ++ bl.filter (fun u => !(u == user_id))) []
      let sims ← (dedupFirst covis).foldlM (fun (acc : List (String × ℝ)) u2 => do
        let l1 ← store.userLog user_id
        let l2 ← store.userLog u2
        let s := calculate_user_similarity l1 l2 now
        return if (1 : ℝ)/10 < s then acc ++ [(u2, s)] else acc) []
      let result := (pySortBy (fun a b => decide (b.2 ≤ a.2)) sims).take limit
      let _ ← store.setCachedSimilarUsers user_id result
      return result

/-- A formatted recommendation (`business_details` entry plus id and score;
the source rounds the score to three decimals for display, kept exact here). -/
structure CFRecEntry where
  business_id : String
  business_name : String
  category : String
  tags : List String
  recommendation_score : ℝ

/-- `recommendations[business_id] += weight` on a `defaultdict(float)`:
first-occurrence key order, accumulation in place. -/
noncomputable def addWeight (m : List (String × ℝ)) (k : String) (w : ℝ) :
    List (String × ℝ) :=
  if m.any (fun p => p.1 == k) then
    m.map (fun p => if p.1 == k then (p.1, p.2 + w) else p)
  else m ++ [(k, w)]

/-- `business_details[business_id] = {...}`: last assignment wins. -/
def setDetail (m : List (String × CFInteraction)) (k : String) (i : CFInteraction) :
    List (String × CFInteraction) :=
  if m.any (fun p => p.1 == k) then m.map (fun p => if p.1 == k then (k, i) else p)
  else m ++ [(k, i)]

/-- `business_details[business_id]` lookup. -/
def lookupDetail (m : List (String × CFInteraction)) (k : String) : Option CFInteraction :=
  match m with
  | [] => none
  | p :: rest => if p.1 = k then some p.2 else lookupDetail rest k

/-- `collaborative_filtering.get_collaborative_recommendations`: fetch up to
20 similar users (empty ⇒ return `[]`), accumulate `similarity * rating` per
unseen, non-excluded business across the similar users' recent interactions,
sort descending, truncate, format.  No `try`/`except` here: any store failure
propagates to the caller. -/
noncomputable def get_collaborative_recommendations (store : CFStore) (now : ℚ)
    (user_id : String) (exclude_businesses : List String) (limit : ℕ) :
    Except Unit (List CFRecEntry) := do
  let similar ← find_similar_users store now user_id 20
  match similar with
  | [] => return []
  | _ :: _ =>
    let log ← store.userLog user_id
    let user_businesses := (get_user_interactions log now 30).map (fun i => i.business_id)
    let st ← similar.foldlM
      (fun (st : List (String × ℝ) × List (String × CFInteraction)) p => do
        let l2 ← store.userLog p.1
        return (get_user_interactions l2 now 30).foldl
          (fun st2 i =>
            if user_businesses.contains i.business_id then st2
            else if exclude_businesses.contains i.business_id then st2
            else (addWeight st2.1 i.business_id (p.2 * (i.rating : ℝ)),
                  setDetail st2.2 i.business_id i)) st)
      ([], [])
    let sorted := pySortBy (fun a b => decide (b.2 ≤ a.2)) st.1
    return (sorted.take limit).filterMap (fun p =>
      (lookupDetail st.2 p.1).map (fun i =>
        { business_id := p.1, business_name := i.business_name,
          category := i.category, tags := i.tags, recommendation_score := p.2 }))

/-- `collaborative_filtering_simple.get_collaborative_recommendations`: when
the engine is disabled, the connection failed, or the client is missing it
returns `[]`; the remaining body is literally `return []` (the full algorithm
is not implemented in this module), and every exception is caught and also
yields `[]`. -/
def get_collaborative_recommendations_simple (enabled connect_ok : Bool)
    (user_id : String) (exclude_businesses : List String) (limit : ℕ) : List CFRecEntry :=
  if !enabled then []
  else if !connect_ok then []
  else []

/-- The record-level guarantee every parser branch enforces before emitting a
record: in-range coordinates, non-empty business name, non-empty category. -/
def ValidParsed (b : ParsedBiz) : Prop :=
  validate_coordinates b.latitude b.longitude = true ∧
    b.business_name ≠ "" ∧ b.business_category ≠ ""

/-! ## Representations of one logical business (for the format round-trip) -/

/-- A field value usable in all three textual formats: non-empty, no
leading/trailing whitespace, and free of commas, newlines and double quotes
(the separator characters of the delimited formats). -/
def cleanChars (l : List Char) : Bool :=
  !l.isEmpty &&
  (match l.head? with | some c => !isSpaceChar c | none => false) &&
  (match l.getLast? with | some c => !isSpaceChar c | none => false) &&
  l.all (fun c => !(c == ',') && !(c == '\n') && !(c == quoteChar))

def CleanStr (s : String) : Prop := cleanChars s.data = true

def lbrace : Char := Char.ofNat 123

def rbrace : Char := Char.ofNat 125

/-- JSON rendering of a field value (for the blob's raw text). -/
def renderJVal (floatRepr : ℚ → String) : JVal → List Char
  | .jstr s => quoteChar :: s.data ++ [quoteChar]
  | .jnum q => (floatRepr q).data
  | .jnull => "null".data

/-- JSON rendering of an object's fields. -/
def renderFields (floatRepr : ℚ → String) : List (String × JVal) → List Char
  | [] => []
  | [p] => quoteChar :: p.1.data ++ quoteChar :: ':' :: ' ' :: renderJVal floatRepr p.2
  | p :: rest =>
    (quoteChar :: p.1.data ++ quoteChar :: ':' :: ' ' :: renderJVal floatRepr p.2) ++
      ',' :: ' ' :: renderFields floatRepr rest

/-- JSON rendering of an object. -/
def renderJson (floatRepr : ℚ → String) (fields : List (String × JVal)) : List Char :=
  lbrace :: renderFields floatRepr fields ++ [rbrace]

/-- The per-business JSON payload written by `upload_api.write_business_file`
for the given field values. -/
def jsonRepFields (own biz cat tags latS lonS : String) (lat lon : ℚ) :
    List (String × JVal) :=
  [("name", .jstr own), ("owner_name", .jstr own), ("business_name", .jstr biz),
   ("business_category", .jstr cat), ("business_tags", .jstr tags),
   ("latitude", .jnum lat), ("longitude", .jnum lon),
   ("lat_long", .jstr ⟨latS.data ++ ',' :: lonS.data⟩)]

/-- The JSON-object representation of the business: the rendered payload text
together with its (successful) `json.loads` image. -/
def jsonRep (floatRepr : ℚ → String) (own biz cat tags latS lonS : String)
    (lat lon : ℚ) : TextBlob :=
  { raw := ⟨renderJson floatRepr (jsonRepFields own biz cat tags latS lonS lat lon)⟩,
    asJson := some (.jdict (jsonRepFields own biz cat tags latS lonS lat lon)) }

/-- The key:value block representation of the business (the per-business text
file format); a key:value block is not valid JSON, so `asJson` is `none`. -/
def kvRepRaw (own biz cat tags latS lonS : String) : List Char :=
  "business_name:".data ++ ' ' :: biz.data ++ '\n' ::
  ("owner_name:".data ++ ' ' :: own.data ++ '\n' ::
  ("business_category:".data ++ ' ' :: cat.data ++ '\n' ::
  ("business_tags:".data ++ ' ' :: tags.data ++ '\n' ::
  ("latitude:".data ++ ' ' :: latS.data ++ '\n' ::
  ("longitude:".data ++ ' ' :: lonS.data)))))

def kvRep (own biz cat tags latS lonS : String) : TextBlob :=
  { raw := ⟨kvRepRaw own biz cat tags latS lonS⟩, asJson := none }

/-- The comma-delimited row representation of the business: exactly the
`name,business_name,lat,lon,category,tags` line format of the repository's
`businesses.txt` mirror (`upload_api.append_rows`). -/
def csvRepRaw (own biz cat tags latS lonS : String) : List Char :=
  own.data ++ ',' :: biz.data ++ ',' :: latS.data ++ ',' :: lonS.data ++
    ',' :: cat.data ++ ',' :: tags.data

def csvRep (own biz cat tags latS lonS : String) : TextBlob :=
  { raw := ⟨csvRepRaw own biz cat tags latS lonS⟩, asJson := none }

/-- The canonical record every branch should produce for those field values. -/
def canonicalRecord (floatRepr : ℚ → String) (own biz cat tags : String)
    (lat lon : ℚ) : ParsedBiz :=
  { name := own, business_name := biz, latitude := lat, longitude := lon,
    lat_long := floatRepr lat ++ "," ++ floatRepr lon,
    business_category := cat, business_tags := tags }

/-! ## Concrete data used by counterexamples and witnesses -/

/-- A stand-in float formatter for concrete evaluations (the formatter is an
abstract parameter everywhere; results never depend on its output). -/
def floatReprX : ℚ → String := fun _ => "0.0"

/-- JSON payload with no `name`/`owner_name` field (raw text alongside its
parsed image). -/
def blobNoOwner : TextBlob :=
  { raw := "\x7b\"business_name\": \"Cafe X\", \"business_category\": \"cafe\", \"latitude\": 10, \"longitude\": 20\x7d",
    asJson := some (.jdict [("business_name", .jstr "Cafe X"),
      ("business_category", .jstr "cafe"),
      ("latitude", .jnum 10), ("longitude", .jnum 20)]) }

/-- JSON payload whose `business_name` is a number: `(5).strip()` raises
`AttributeError`, which `parse_business_from_text` does not catch. -/
def blobNumName : TextBlob :=
  { raw := "\x7b\"business_name\": 5, \"business_category\": \"x\", \"latitude\": 10, \"longitude\": 20\x7d",
    asJson := some (.jdict [("business_name", .jnum 5),
      ("business_category", .jstr "x"),
      ("latitude", .jnum 10), ("longitude", .jnum 20)]) }

/-- Ranker tie example: vector score `1/5`, placed `14/3` km away (under the
distance stand-in `fun _ _ lat _ => lat`). -/
def rankExA : Business :=
  { name := "o1", business_name := "A", latitude := 14/3, longitude := 0,
    lat_long := "x", business_category := "c", business_tags := "",
    vector_score := 1/5, source_path := "", distance_km := 0 }

/-- Ranker tie example: vector score `2/5` at distance `0`; with weights
`(0.7, 0.3)` and `max_distance_km = 10` both examples score `7/25`. -/
def rankExB : Business :=
  { name := "o2", business_name := "B", latitude := 0, longitude := 0,
    lat_long := "y", business_category := "c", business_tags := "",
    vector_score := 2/5, source_path := "", distance_km := 0 }

/-- Contextual example: matches the NIGHT boost `"bar"` and also the NIGHT
penalty `"business services"`. -/
def ctxExA : CBusiness :=
  { business_category := "bar", business_tags := "business services",
    distance_km := some 2, vector_score := none }

/-- Contextual example: matches no boost or penalty entry of any time factor
bucket's tables. -/
def ctxExB : CBusiness :=
  { business_category := "plumber", business_tags := "",
    distance_km := some 2, vector_score := none }

/-- A store whose every operation raises (models Redis being down). -/
def errStore : CFStore :=
  { cachedSimilarUsers := fun _ => .error (), userLog := fun _ => .error (),
    businessLog := fun _ => .error (), setCachedSimilarUsers := fun _ _ => .error () }

/-- A reachable store holding no cached similar-users entry and an empty
interaction log for every user. -/
def okEmptyStore : CFStore :=
  { cachedSimilarUsers := fun _ => .ok none, userLog := fun _ => .ok [],
    businessLog := fun _ => .ok [], setCachedSimilarUsers := fun _ _ => .ok () }

/-- Interaction log: ratings 5 on `b1` and 3 on `b2` (scenario-C shape). -/
def cfLog1 : List CFInteraction :=
  [{ business_id := "b1", business_name := "B1", category := "cafe", tags := [],
     rating := 5, timestamp := 1000 },
   { business_id := "b2", business_name := "B2", category := "bar", tags := [],
     rating := 3, timestamp := 1001 }]

/-- Interaction log: ratings 4 on `b1` and 2 on `b2`. -/
def cfLog2 : List CFInteraction :=
  [{ business_id := "b1", business_name := "B1", category := "cafe", tags := [],
     rating := 4, timestamp := 1000 },
   { business_id := "b2", business_name := "B2", category := "bar", tags := [],
     rating := 2, timestamp := 1001 }]

/-- Contextual example matching only the AFTERNOON boost `"coffee shop"`. -/
def ctxWitA : CBusiness :=
  { business_category := "coffee shop", business_tags := "",
    distance_km := some 2, vector_score := none }

/-- Duplicate-key example: the lower-scored parse of one business. -/
def dupLo : Business :=
  { name := "o", business_name := "Same", latitude := 1, longitude := 2,
    lat_long := "1,2", business_category := "c", business_tags := "",
    vector_score := 1/10, source_path := "a", distance_km := 0 }

/-- Duplicate-key example: a higher-scored parse of the same business. -/
def dupHi : Business :=
  { dupLo with vector_score := 3/10, source_path := "b" }

/-! ## Lemmas about the stable sort -/

theorem mem_pyInsertKey {β : Type} (key : β → ℚ) (x : β) (l : List β) (a : β) :
    a ∈ pyInsertKey key x l ↔ a = x ∨ a ∈ l := by
  induction l with
  | nil => simp [pyInsertKey]
  | cons y ys ih =>
    by_cases h : key x ≤ key y
    · rw [pyInsertKey, if_pos h]
      simp only [List.mem_cons]
    · rw [pyInsertKey, if_neg h]
      simp only [List.mem_cons, ih]
      tauto

theorem mem_pySortByKey {β : Type} (key : β → ℚ) (l : List β) (a : β) :
    a ∈ pySortByKey key l ↔ a ∈ l := by
  induction l with
  | nil => simp [pySortByKey]
  | cons x xs ih => simp [pySortByKey, mem_pyInsertKey, ih, List.mem_cons]

theorem pairwise_pyInsertKey {β : Type} (key : β → ℚ) (x : β) (l : List β)
    (h : l.Pairwise (fun a b => key a ≤ key b)) :
    (pyInsertKey key x l).Pairwise (fun a b => key a ≤ key b) := by
  induction l with
  | nil => simp [pyInsertKey]
  | cons y ys ih =>
    rcases List.pairwise_cons.mp h with ⟨hy, hys⟩
    by_cases hxy : key x ≤ key y
    · rw [pyInsertKey, if_pos hxy]
      refine List.pairwise_cons.mpr ⟨?_, h⟩
      intro z hz
      rcases List.mem_cons.mp hz with rfl | hz
      · exact hxy
      · exact le_trans hxy (hy z hz)
    · rw [pyInsertKey, if_neg hxy]
      refine List.pairwise_cons.mpr ⟨?_, ih hys⟩
      intro z hz
      rcases (mem_pyInsertKey key x ys z).mp hz with rfl | hz
      · exact le_of_lt (lt_of_not_le hxy)
      · exact hy z hz

theorem pairwise_pySortByKey {β : Type} (key : β → ℚ) (l : List β) :
    (pySortByKey key l).Pairwise (fun a b => key a ≤ key b) := by
  induction l with
  | nil => simp [pySortByKey]
  | cons x xs ih => exact pairwise_pyInsertKey key x _ ih

theorem filter_pyInsertKey {β : Type} (key : β → ℚ) (x : β) (l : List β) (c : ℚ) :
    (pyInsertKey key x l).filter (fun b => decide (key b = c)) =
      if key x = c then x :: l.filter (fun b => decide (key b = c))
      else l.filter (fun b => decide (key b = c)) := by
  induction l with
  | nil => by_cases h : key x = c <;> simp [pyInsertKey, h]
  | cons y ys ih =>
    by_cases hxy : key x ≤ key y
    · rw [pyInsertKey, if_pos hxy]
      by_cases h : key x = c <;> simp [List.filter_cons, h]
    · rw [pyInsertKey, if_neg hxy]
      by_cases h : key x = c
      · have hyc : ¬ (key y = c) := by
          intro hc
          exact hxy (le_of_eq (h.trans hc.symm))
        simp [List.filter_cons, hyc, h, ih]
      · simp [List.filter_cons, h, ih]

theorem filter_pySortByKey {β : Type} (key : β → ℚ) (l : List β) (c : ℚ) :
    (pySortByKey key l).filter (fun b => decide (key b = c)) =
      l.filter (fun b => decide (key b = c)) := by
  induction l with
  | nil => rfl
  | cons x xs ih =>
    by_cases h : key x = c
    · simp [pySortByKey, filter_pyInsertKey, h, ih, List.filter_cons]
    · simp [pySortByKey, filter_pyInsertKey, h, ih, List.filter_cons]

/-! ## C1: weight resolution -/

/-- C1: in `search_businesses_vectorized`, the `(relevance_weight,
distance_weight)` pair is resolved in priority order: `sort_mode = "distance"`
gives `(0,1)`; else `sort_mode = "relevance"` gives `(1,0)`; else an explicit
`distance_weight` `w ∈ [0,1]` gives `(1-w, w)`; else `(1/2, 1/2)` when the
lowercased query contains a locality cue and `(7/10, 3/10)` otherwise. -/
theorem C1_weight_resolution (sort_mode : Option String) (distance_weight : Option ℚ)
    (query : String) :
    (sort_mode = some "distance" →
      resolveWeights sort_mode distance_weight query = (0, 1)) ∧
    (sort_mode ≠ some "distance" → sort_mode = some "relevance" →
      resolveWeights sort_mode distance_weight query = (1, 0)) ∧
    (sort_mode ≠ some "distance" → sort_mode ≠ some "relevance" →
      ∀ w, distance_weight = some w → 0 ≤ w → w ≤ 1 →
        resolveWeights sort_mode distance_weight query = (1 - w, w)) ∧
    (sort_mode ≠ some "distance" → sort_mode ≠ some "relevance" →
      distance_weight = none → autoDistanceBias query = true →
      resolveWeights sort_mode distance_weight query = (1/2, 1/2)) ∧
    (sort_mode ≠ some "distance" → sort_mode ≠ some "relevance" →
      distance_weight = none → autoDistanceBias query = false →
      resolveWeights sort_mode distance_weight query = (7/10, 3/10)) := by
  refine ⟨?_, ?_, ?_, ?_, ?_⟩
  · intro h
    simp [resolveWeights, h]
  · intro h1 h2
    simp [resolveWeights, h1, h2]
  · intro h1 h2 w hw h0 hle
    have hmin : min (1 - w) 1 = 1 - w := min_eq_left (by linarith)
    have hmax : max 0 (1 - w) = 1 - w := max_eq_right (by linarith)
    have hmin2 : min w 1 = w := min_eq_left hle
    have hmax2 : max 0 w = w := max_eq_right h0
    simp [resolveWeights, h1, h2, hw, hmin, hmax, hmin2, hmax2]
  · intro h1 h2 hw hq
    simp [resolveWeights, h1, h2, hw, hq]
  · intro h1 h2 hw hq
    simp [resolveWeights, h1, h2, hw, hq]

/-- Witness for C1 at concrete inputs (one per branch of the resolution). -/
theorem C1_weight_resolution_witness :
    resolveWeights (some "distance") none "q" = (0, 1) ∧
    resolveWeights (some "relevance") none "q" = (1, 0) ∧
    resolveWeights none (some (1/4)) "q" = (1 - 1/4, 1/4) ∧
    resolveWeights none none "coffee near me" = (1/2, 1/2) ∧
    resolveWeights none none "coffee" = (7/10, 3/10) :=
  ⟨(C1_weight_resolution (some "distance") none "q").1 rfl,
   (C1_weight_resolution (some "relevance") none "q").2.1 (by decide) rfl,
   (C1_weight_resolution none (some (1/4)) "q").2.2.1 (by decide) (by decide)
     (1/4) rfl (by norm_num) (by norm_num),
   (C1_weight_resolution none none "coffee near me").2.2.2.1 (by decide) (by decide)
     rfl (by decide),
   (C1_weight_resolution none none "coffee").2.2.2.2 (by decide) (by decide)
     rfl (by decide)⟩

/-! ## Lemmas about deduplication (step 3) -/

theorem dedupStep_inv (seen acc : List Business) (b : Business)
    (h1 : acc.Pairwise (fun a c => dedupKey a ≠ dedupKey c))
    (h2 : ∀ x ∈ acc, x ∈ seen ∧
      ∀ c ∈ seen, dedupKey c = dedupKey x → x.vector_score ≤ c.vector_score)
    (h3 : ∀ c ∈ seen, ∃ x ∈ acc, dedupKey x = dedupKey c) :
    (dedupStep acc b).Pairwise (fun a c => dedupKey a ≠ dedupKey c) ∧
    (∀ x ∈ dedupStep acc b, x ∈ seen ++ [b] ∧
      ∀ c ∈ seen ++ [b], dedupKey c = dedupKey x → x.vector_score ≤ c.vector_score) ∧
    (∀ c ∈ seen ++ [b], ∃ x ∈ dedupStep acc b, dedupKey x = dedupKey c) := by
  by_cases hany : acc.any (fun x => dedupKey x == dedupKey b)
  · -- key already present: in-place conditional replacement
    have hrepl : dedupStep acc b =
        acc.map (fun x =>
          if dedupKey x == dedupKey b && decide (b.vector_score < x.vector_score)
          then b else x) := by
      rw [dedupStep, if_pos hany]
    obtain ⟨y, hy, hyk⟩ := List.any_eq_true.mp hany
    have hykey : dedupKey y = dedupKey b := by
      exact beq_iff_eq.mp hyk
    have hkey_map : ∀ x : Business,
        dedupKey (if dedupKey x == dedupKey b && decide (b.vector_score < x.vector_score)
                  then b else x) = dedupKey x := by
      intro x
      by_cases hc : (dedupKey x == dedupKey b && decide (b.vector_score < x.vector_score)) = true
      · rw [if_pos hc]
        have := beq_iff_eq.mp (Bool.and_elim_left hc)
        exact this.symm
      · rw [if_neg hc]
    refine ⟨?_, ?_, ?_⟩
    · rw [hrepl, List.pairwise_map]
      refine h1.imp_of_mem ?_
      intro a c _ _ hne
      rw [hkey_map a, hkey_map c]
      exact hne
    · intro x hx
      rw [hrepl, List.mem_map] at hx
      obtain ⟨a, ha, hax⟩ := hx
      by_cases hc : (dedupKey a == dedupKey b && decide (b.vector_score < a.vector_score)) = true
      · rw [if_pos hc] at hax
        subst hax
        have hak : dedupKey a = dedupKey b := beq_iff_eq.mp (Bool.and_elim_left hc)
        have hlt : b.vector_score < a.vector_score :=
          of_decide_eq_true (Bool.and_elim_right hc)
        refine ⟨List.mem_append.mpr (Or.inr (List.mem_singleton.mpr rfl)), ?_⟩
        intro c hc2 hck
        rcases List.mem_append.mp hc2 with hc2 | hc2
        · -- c is an earlier fragment with the same key: a is minimal among seen
          have := (h2 a ha).2 c hc2 (by rw [hck, ← hak])
          linarith
        · rw [List.mem_singleton.mp hc2]
      · rw [if_neg hc] at hax
        subst hax
        refine ⟨List.mem_append.mpr (Or.inl (h2 a ha).1), ?_⟩
        intro c hc2 hck
        rcases List.mem_append.mp hc2 with hc2 | hc2
        · exact (h2 a ha).2 c hc2 hck
        · rw [List.mem_singleton.mp hc2] at hck ⊢
          by_cases hak : dedupKey a = dedupKey b
          · have : ¬ b.vector_score < a.vector_score := by
              intro hlt
              exact hc (by
                rw [Bool.and_eq_true]
                exact ⟨beq_iff_eq.mpr hak, decide_eq_true hlt⟩)
            exact le_of_not_lt this
          · exact absurd hck.symm hak
    · intro c hc2
      rcases List.mem_append.mp hc2 with hc2 | hc2
      · obtain ⟨x, hx, hxk⟩ := h3 c hc2
        refine ⟨(fun z =>
          if dedupKey z == dedupKey b && decide (b.vector_score < z.vector_score)
          then b else z) x, ?_, ?_⟩
        · rw [hrepl]
          exact List.mem_map.mpr ⟨x, hx, rfl⟩
        · rw [hkey_map x]
          exact hxk
      · rw [List.mem_singleton.mp hc2]
        refine ⟨(fun z =>
          if dedupKey z == dedupKey b && decide (b.vector_score < z.vector_score)
          then b else z) y, ?_, ?_⟩
        · rw [hrepl]
          exact List.mem_map.mpr ⟨y, hy, rfl⟩
        · rw [hkey_map y]
          exact hykey
  · -- new key: appended at the end
    have hnew : dedupStep acc b = acc ++ [b] := by
      rw [dedupStep, if_neg hany]
    have hno : ∀ x ∈ acc, dedupKey x ≠ dedupKey b := by
      intro x hx hk
      exact hany (List.any_eq_true.mpr ⟨x, hx, beq_iff_eq.mpr hk⟩)
    have hno_seen : ∀ c ∈ seen, dedupKey c ≠ dedupKey b := by
      intro c hc hk
      obtain ⟨x, hx, hxk⟩ := h3 c hc
      exact hno x hx (hxk.trans hk)
    refine ⟨?_, ?_, ?_⟩
    · rw [hnew, List.pairwise_append]
      refine ⟨h1, List.pairwise_singleton _ _, ?_⟩
      intro a ha c hc
      rw [List.mem_singleton.mp hc]
      exact hno a ha
    · intro x hx
      rw [hnew, List.mem_append] at hx
      rcases hx with hx | hx
      · refine ⟨List.mem_append.mpr (Or.inl (h2 x hx).1), ?_⟩
        intro c hc2 hck
        rcases List.mem_append.mp hc2 with hc2 | hc2
        · exact (h2 x hx).2 c hc2 hck
        · rw [List.mem_singleton.mp hc2] at hck
          exact absurd hck.symm (hno x hx)
      · rw [List.mem_singleton.mp hx]
        refine ⟨List.mem_append.mpr (Or.inr (List.mem_singleton.mpr rfl)), ?_⟩
        intro c hc2 hck
        rcases List.mem_append.mp hc2 with hc2 | hc2
        · exact absurd hck (hno_seen c hc2)
        · rw [List.mem_singleton.mp hc2]
    · intro c hc2
      rcases List.mem_append.mp hc2 with hc2 | hc2
      · obtain ⟨x, hx, hxk⟩ := h3 c hc2
        exact ⟨x, by rw [hnew]; exact List.mem_append.mpr (Or.inl hx), hxk⟩
      · rw [List.mem_singleton.mp hc2]
        exact ⟨b, by rw [hnew]; exact List.mem_append.mpr (Or.inr (List.mem_singleton.mpr rfl)), rfl⟩

theorem dedupFold_inv (l : List Business) : ∀ (seen acc : List Business),
    acc.Pairwise (fun a c => dedupKey a ≠ dedupKey c) →
    (∀ x ∈ acc, x ∈ seen ∧
      ∀ c ∈ seen, dedupKey c = dedupKey x → x.vector_score ≤ c.vector_score) →
    (∀ c ∈ seen, ∃ x ∈ acc, dedupKey x = dedupKey c) →
    ((l.foldl dedupStep acc).Pairwise (fun a c => dedupKey a ≠ dedupKey c) ∧
     (∀ x ∈ l.foldl dedupStep acc, x ∈ seen ++ l ∧
        ∀ c ∈ seen ++ l, dedupKey c = dedupKey x → x.vector_score ≤ c.vector_score) ∧
     (∀ c ∈ seen ++ l, ∃ x ∈ l.foldl dedupStep acc, dedupKey x = dedupKey c)) := by
  induction l with
  | nil =>
    intro seen acc h1 h2 h3
    simpa using ⟨h1, h2, h3⟩
  | cons b rest ih =>
    intro seen acc h1 h2 h3
    have step := dedupStep_inv seen acc b h1 h2 h3
    have main := ih (seen ++ [b]) (dedupStep acc b) step.1 step.2.1 step.2.2
    simpa [List.append_assoc] using main

/-! ## C4: deduplication -/

/-- C4: after step 3 of `search_businesses_vectorized`, (i) the output holds
at most one record per `business_name + "lat,lon"` key; (ii) every retained
record is an input fragment whose vector score is minimal among the input
fragments sharing its key; (iii) every input key is represented; hence (iv)
of two fragments sharing a key with different vector scores, the one with the
strictly higher score is not retained — distance plays no role (it is not yet
computed at this stage). -/
theorem C4_dedup_keeps_best (l : List Business) :
    (dedupBusinesses l).Pairwise (fun a c => dedupKey a ≠ dedupKey c) ∧
    (∀ x ∈ dedupBusinesses l, x ∈ l ∧
       ∀ c ∈ l, dedupKey c = dedupKey x → x.vector_score ≤ c.vector_score) ∧
    (∀ c ∈ l, ∃ x ∈ dedupBusinesses l, dedupKey x = dedupKey c) ∧
    (∀ x y, x ∈ l → y ∈ l → dedupKey x = dedupKey y →
       x.vector_score < y.vector_score → y ∉ dedupBusinesses l) := by
  have h := dedupFold_inv l [] []
    (List.Pairwise.nil) (by intro x hx; cases hx) (by intro c hc; cases hc)
  rw [List.nil_append] at h
  refine ⟨h.1, h.2.1, h.2.2, ?_⟩
  intro x y hx hy hk hlt hmem
  have hmin := (h.2.1 y hmem).2 x hx hk
  linarith

/-- Witness for C4: with two same-key fragments of scores `1/10 < 3/10`, the
higher-scored one is dropped. -/
theorem C4_dedup_keeps_best_witness : dupHi ∉ dedupBusinesses [dupLo, dupHi] :=
  (C4_dedup_keeps_best [dupLo, dupHi]).2.2.2 dupLo dupHi
    (List.mem_cons_self _ _) (List.mem_cons_of_mem _ (List.mem_cons_self _ _))
    rfl (by norm_num [dupLo, dupHi])

/-! ## C2: the distance cutoff -/

theorem mem_of_mem_categoryFilter (catF : Option String) (bs : List Business)
    (b : Business) (h : b ∈ categoryFilter catF bs) : b ∈ bs := by
  cases catF with
  | none => exact h
  | some c =>
    rw [categoryFilter] at h
    by_cases hc : c = ""
    · rwa [if_pos hc] at h
    · rw [if_neg hc] at h
      exact (List.mem_filter.mp h).1

theorem mem_of_mem_tagFilter (tagF : Option (List String)) (bs : List Business)
    (b : Business) (h : b ∈ tagFilter tagF bs) : b ∈ bs := by
  cases tagF with
  | none => exact h
  | some ts =>
    rw [tagFilter] at h
    by_cases hts : ts.isEmpty
    · rwa [if_pos hts] at h
    · rw [if_neg hts] at h
      exact (List.mem_filter.mp h).1

theorem mem_distanceFilterMap_elim (hav : ℚ → ℚ → ℚ → ℚ → ℚ) (round2 : ℚ → ℚ)
    (ulat ulng maxD : ℚ) (bs : List Business) (b : Business)
    (h : b ∈ distanceFilterMap hav round2 ulat ulng maxD bs) :
    ∃ a ∈ bs, b = { a with distance_km := round2 (hav ulat ulng a.latitude a.longitude) } ∧
      (10000 ≤ maxD ∨ hav ulat ulng a.latitude a.longitude ≤ maxD) := by
  rw [distanceFilterMap, List.mem_filterMap] at h
  obtain ⟨a, ha, hfa⟩ := h
  refine ⟨a, ha, ?_⟩
  by_cases h1 : 10000 ≤ maxD
  · simp only [if_pos h1] at hfa
    exact ⟨(Option.some.inj hfa).symm, Or.inl h1⟩
  · simp only [if_neg h1] at hfa
    by_cases h2 : hav ulat ulng a.latitude a.longitude ≤ maxD
    · simp only [if_pos h2] at hfa
      exact ⟨(Option.some.inj hfa).symm, Or.inr h2⟩
    · simp only [if_neg h2] at hfa
      cases hfa

/-- C2: when `max_distance_km < 10000` every record in the ranker's output is
within `max_distance_km` of the requester (as measured by the distance
function the code filters with); when `max_distance_km ≥ 10000` the distance
stage drops nothing — every deduplicated record appears (annotated) in the
distance stage's output, and the pre-limit sorted result holds exactly the
filter-matching pool. -/
theorem C2_distance_cutoff (hav : ℚ → ℚ → ℚ → ℚ → ℚ) (round2 : ℚ → ℚ) (query : String)
    (ulat ulng maxD : ℚ) (catF : Option String) (tagF : Option (List String))
    (limit : ℕ) (dw : Option ℚ) (sm : Option String) (candidates : List Business) :
    (maxD < 10000 →
      ∀ b ∈ search_businesses_vectorized_rank hav round2 query ulat ulng maxD
          catF tagF limit dw sm candidates,
        hav ulat ulng b.latitude b.longitude ≤ maxD) ∧
    (10000 ≤ maxD →
      (∀ a ∈ dedupBusinesses candidates,
        { a with distance_km := round2 (hav ulat ulng a.latitude a.longitude) } ∈
          distanceFilterMap hav round2 ulat ulng maxD (dedupBusinesses candidates)) ∧
      (∀ b, b ∈ rankSorted hav round2 query ulat ulng maxD catF tagF dw sm candidates ↔
        b ∈ rankPool hav round2 ulat ulng maxD catF tagF candidates)) := by
  constructor
  · intro hmax b hb
    have hb1 : b ∈ rankSorted hav round2 query ulat ulng maxD catF tagF dw sm candidates :=
      List.take_subset _ _ hb
    have hb2 : b ∈ rankPool hav round2 ulat ulng maxD catF tagF candidates :=
      (mem_pySortByKey _ _ b).mp hb1
    have hb3 := mem_of_mem_categoryFilter catF _ b (mem_of_mem_tagFilter tagF _ b hb2)
    obtain ⟨a, _, hba, hcond⟩ := mem_distanceFilterMap_elim hav round2 ulat ulng maxD _ b hb3
    have hlat : b.latitude = a.latitude := by rw [hba]
    have hlng : b.longitude = a.longitude := by rw [hba]
    rw [hlat, hlng]
    rcases hcond with h1 | h2
    · linarith
    · exact h2
  · intro hmax
    constructor
    · intro a ha
      rw [distanceFilterMap, List.mem_filterMap]
      exact ⟨a, ha, by simp only [if_pos hmax]⟩
    · intro b
      exact mem_pySortByKey _ _ b

/-- Witness for C2 at concrete inputs: a within-range record under a constant
distance function for the finite leg, and the no-exclusion fact for the
unlimited leg. -/
theorem C2_distance_cutoff_witness :
    (∀ b ∈ search_businesses_vectorized_rank (fun _ _ _ _ => 1) id "q" 0 0 5
        none none 20 none none [rankExB],
      (fun (_ _ _ _ : ℚ) => (1 : ℚ)) 0 0 b.latitude b.longitude ≤ 5) ∧
    (∀ a ∈ dedupBusinesses [rankExA],
      { a with distance_km := id ((fun (_ _ _ _ : ℚ) => (1 : ℚ)) 0 0 a.latitude a.longitude) } ∈
        distanceFilterMap (fun _ _ _ _ => 1) id 0 0 10000 (dedupBusinesses [rankExA])) :=
  ⟨(C2_distance_cutoff (fun _ _ _ _ => 1) id "q" 0 0 5 none none 20 none none
      [rankExB]).1 (by norm_num),
   ((C2_distance_cutoff (fun _ _ _ _ => 1) id "q" 0 0 10000 none none 20 none none
      [rankExA]).2 (le_refl 10000)).1⟩

/-! ## C3: order sensitivity of the hybrid sort -/

/-- C3 counterexample: the two candidates score identically (`7/25`) under the
default weights `(7/10, 3/10)` with `max_distance_km = 10`, so the stable sort
leaves them in input order — permuting the input permutes the output, and in
the second order the record with the *higher* relevance score (`2/5`) is
placed first.  (Distance stand-in: `fun _ _ lat _ => lat`; rounding: `id`.) -/
theorem C3_counterexample :
    search_businesses_vectorized_rank (fun _ _ la _ => la) id "q" 0 0 10 none none
        20 none none [rankExA, rankExB] =
      [{ rankExA with distance_km := 14/3 }, { rankExB with distance_km := 0 }] ∧
    search_businesses_vectorized_rank (fun _ _ la _ => la) id "q" 0 0 10 none none
        20 none none [rankExB, rankExA] =
      [{ rankExB with distance_km := 0 }, { rankExA with distance_km := 14/3 }] := by
  constructor <;>
    norm_num +decide [search_businesses_vectorized_rank, rankSorted, rankPool, resolveWeights,
      autoDistanceBias, near_cues, containsSub, containsL, listStartsWith, lowerStr, lowerL,
      dedupBusinesses, dedupStep, dedupKey, distanceFilterMap, categoryFilter, tagFilter,
      maxObservedDistance, rankKey, pySortByKey, pyInsertKey, rankExA, rankExB,
      List.filterMap_cons, List.foldl_cons, List.foldl_nil, List.any_cons, List.any_nil,
      List.take_cons, List.take_nil]

/-- C3 (amended): the ranker's pre-limit output is sorted ascending by the
hybrid score, and the sort is stable — for every score value, the records
attaining it appear in exactly their pre-sort (candidate) order.  Ties are
therefore broken by input position, not by relevance score, and candidate
order does affect the output when scores tie. -/
theorem C3_sorted_and_stable (hav : ℚ → ℚ → ℚ → ℚ → ℚ) (round2 : ℚ → ℚ) (query : String)
    (ulat ulng maxD : ℚ) (catF : Option String) (tagF : Option (List String))
    (dw : Option ℚ) (sm : Option String) (candidates : List Business) :
    (rankSorted hav round2 query ulat ulng maxD catF tagF dw sm candidates).Pairwise
      (fun a b =>
        rankKey (resolveWeights sm dw query).1 (resolveWeights sm dw query).2 maxD
          (maxObservedDistance (rankPool hav round2 ulat ulng maxD catF tagF candidates)) a ≤
        rankKey (resolveWeights sm dw query).1 (resolveWeights sm dw query).2 maxD
          (maxObservedDistance (rankPool hav round2 ulat ulng maxD catF tagF candidates)) b) ∧
    (∀ c : ℚ,
      (rankSorted hav round2 query ulat ulng maxD catF tagF dw sm candidates).filter
        (fun b => decide (rankKey (resolveWeights sm dw query).1
          (resolveWeights sm dw query).2 maxD
          (maxObservedDistance (rankPool hav round2 ulat ulng maxD catF tagF candidates)) b = c)) =
      (rankPool hav round2 ulat ulng maxD catF tagF candidates).filter
        (fun b => decide (rankKey (resolveWeights sm dw query).1
          (resolveWeights sm dw query).2 maxD
          (maxObservedDistance (rankPool hav round2 ulat ulng maxD catF tagF candidates)) b = c))) :=
  ⟨pairwise_pySortByKey _ _, fun c => filter_pySortByKey _ _ c⟩

/-! ## C5: the contextual time-of-day boost -/

theorem timeBoost_lower (t : TimeOfDay) : ∀ p ∈ timeBoost t, 6/5 ≤ p.2 := by
  cases t <;>
    (simp only [timeBoost, List.forall_mem_cons, List.forall_mem_nil]; norm_num)

theorem applyFactor_noMatch (b : CBusiness) (acc : ℚ × List String) (f : ContextualFactor)
    (h1 : findMatch f.category_boost (combinedText b) = none)
    (h2 : findMatch f.category_penalty (combinedText b) = none) :
    applyFactor b acc f = acc := by
  simp [applyFactor, h1, h2]

theorem foldl_applyFactor_noMatch (b : CBusiness) (fs : List ContextualFactor) :
    ∀ acc : ℚ × List String,
    (∀ f ∈ fs, findMatch f.category_boost (combinedText b) = none ∧
               findMatch f.category_penalty (combinedText b) = none) →
    fs.foldl (applyFactor b) acc = acc := by
  induction fs with
  | nil => intro acc _; rfl
  | cons f rest ih =>
    intro acc h
    rw [List.foldl_cons,
      applyFactor_noMatch b acc f (h f (List.mem_cons_self _ _)).1 (h f (List.mem_cons_self _ _)).2]
    exact ih acc (fun g hg => h g (List.mem_cons_of_mem _ hg))

/-- C5 (amended): among factors containing the active time-of-day factor, if
record `A` matches a boosted category of the time factor but no penalty entry
of it and no entry of any other factor in the list, record `B` matches nothing,
the two records carry the same `distance_km`/`vector_score` fields, and the
shared base metric is positive, then `A`'s final rank value is strictly lower
(better) than `B`'s. -/
theorem C5_time_boost_ranks_better (t : TimeOfDay) (pre post : List ContextualFactor)
    (A B : CBusiness) (m : ℚ)
    (hpre : ∀ f ∈ pre ++ post,
      (findMatch f.category_boost (combinedText A) = none ∧
       findMatch f.category_penalty (combinedText A) = none) ∧
      (findMatch f.category_boost (combinedText B) = none ∧
       findMatch f.category_penalty (combinedText B) = none))
    (hA : findMatch (timeFactor t).category_boost (combinedText A) = some m)
    (hApen : findMatch (timeFactor t).category_penalty (combinedText A) = none)
    (hBb : findMatch (timeFactor t).category_boost (combinedText B) = none)
    (hBp : findMatch (timeFactor t).category_penalty (combinedText B) = none)
    (hdist : A.distance_km = B.distance_km) (hvec : A.vector_score = B.vector_score)
    (hbase : 0 < baseMetric A) :
    (scoreBusiness (pre ++ timeFactor t :: post) A).final_score <
      (scoreBusiness (pre ++ timeFactor t :: post) B).final_score := by
  -- the boost multiplier comes from the bucket's table, whose entries are ≥ 6/5
  have hm : 6/5 ≤ m := by
    rcases Option.map_eq_some'.mp hA with ⟨p, hp, hpm⟩
    have hmem : p ∈ (timeFactor t).category_boost := List.mem_of_find?_eq_some hp
    have : p ∈ timeBoost t := by
      simpa [timeFactor] using hmem
    rw [← hpm]
    exact timeBoost_lower t p this
  have hApre : ∀ f ∈ pre, findMatch f.category_boost (combinedText A) = none ∧
      findMatch f.category_penalty (combinedText A) = none :=
    fun f hf => (hpre f (List.mem_append_left _ hf)).1
  have hApost : ∀ f ∈ post, findMatch f.category_boost (combinedText A) = none ∧
      findMatch f.category_penalty (combinedText A) = none :=
    fun f hf => (hpre f (List.mem_append_right _ hf)).1
  have hBall : ∀ f ∈ pre ++ timeFactor t :: post,
      findMatch f.category_boost (combinedText B) = none ∧
      findMatch f.category_penalty (combinedText B) = none := by
    intro f hf
    rcases List.mem_append.mp hf with hf | hf
    · exact (hpre f (List.mem_append_left _ hf)).2
    · rcases List.mem_cons.mp hf with rfl | hf
      · exact ⟨hBb, hBp⟩
      · exact (hpre f (List.mem_append_right _ hf)).2
  have hctxA : ((pre ++ timeFactor t :: post).foldl (applyFactor A) (1, [])).1 =
      m * (6/5) := by
    rw [List.foldl_append, List.foldl_cons,
      foldl_applyFactor_noMatch A pre (1, []) hApre]
    have hstep : applyFactor A (1, []) (timeFactor t) =
        (1 * (m * (6/5)), [(timeFactor t).reason]) := by
      have hw : (timeFactor t).weight = 6/5 := rfl
      simp [applyFactor, hA, hApen, hw]
    rw [hstep, foldl_applyFactor_noMatch A post _ hApost]
    ring
  have hctxB : ((pre ++ timeFactor t :: post).foldl (applyFactor B) (1, [])).1 = 1 := by
    rw [foldl_applyFactor_noMatch B _ (1, []) hBall]
  have hbaseEq : baseMetric A = baseMetric B := by
    unfold baseMetric
    rw [hdist, hvec]
  have hfinA : (scoreBusiness (pre ++ timeFactor t :: post) A).final_score =
      baseMetric A / (m * (6/5)) := by
    rw [scoreBusiness]
    simp only [hctxA]
  have hfinB : (scoreBusiness (pre ++ timeFactor t :: post) B).final_score =
      baseMetric B / 1 := by
    rw [scoreBusiness]
    simp only [hctxB]
  rw [hfinA, hfinB, ← hbaseEq, div_one]
  have h1lt : 1 < m * (6/5) := by nlinarith
  exact div_lt_self hbase h1lt

/-- Witness for C5 at a concrete input: in the AFTERNOON bucket a `"coffee
shop"` record (boost multiplier 6/5) outranks a `"plumber"` record at the same
distance. -/
theorem C5_time_boost_ranks_better_witness :
    (scoreBusiness [timeFactor .AFTERNOON] ctxWitA).final_score <
      (scoreBusiness [timeFactor .AFTERNOON] ctxExB).final_score :=
  C5_time_boost_ranks_better .AFTERNOON [] [] ctxWitA ctxExB (6/5)
    (by intro f hf; cases hf) rfl rfl rfl rfl rfl rfl
    (by norm_num [baseMetric, ctxWitA])

/-- C5 counterexample: in the NIGHT bucket, record `ctxExA` (category `"bar"`,
tags `"business services"`) matches the boosted category `"bar"` of the active
time factor while `ctxExB` matches nothing, both carry distance 2 — yet
`ctxExA` also matches the factor's `"business services"` penalty, its
contextual score is `(9/5·6/5)·(3/10 ÷ 6/5) = 27/50 < 1`, and its final rank
value `100/27` is strictly *higher* (worse) than `ctxExB`'s `2`:
`apply_contextual_factors` orders `ctxExB` first. -/
theorem C5_counterexample :
    (findMatch (timeFactor .NIGHT).category_boost (combinedText ctxExA)).isSome = true ∧
    findMatch (timeFactor .NIGHT).category_boost (combinedText ctxExB) = none ∧
    findMatch (timeFactor .NIGHT).category_penalty (combinedText ctxExB) = none ∧
    ctxExA.distance_km = ctxExB.distance_km ∧
    ctxExA.vector_score = ctxExB.vector_score ∧
    (scoreBusiness [timeFactor .NIGHT] ctxExA).final_score = 100/27 ∧
    (scoreBusiness [timeFactor .NIGHT] ctxExB).final_score = 2 ∧
    apply_contextual_factors [ctxExA, ctxExB] [timeFactor .NIGHT] =
      .scored [scoreBusiness [timeFactor .NIGHT] ctxExB,
               scoreBusiness [timeFactor .NIGHT] ctxExA] ∧
    ¬ ((scoreBusiness [timeFactor .NIGHT] ctxExA).final_score <
       (scoreBusiness [timeFactor .NIGHT] ctxExB).final_score) := by
  have hbA : findMatch (timeFactor .NIGHT).category_boost (combinedText ctxExA) =
      some (9/5) := rfl
  have hpA : findMatch (timeFactor .NIGHT).category_penalty (combinedText ctxExA) =
      some (3/10) := rfl
  have hbB : findMatch (timeFactor .NIGHT).category_boost (combinedText ctxExB) =
      none := rfl
  have hpB : findMatch (timeFactor .NIGHT).category_penalty (combinedText ctxExB) =
      none := rfl
  have hw : (timeFactor .NIGHT).weight = 6/5 := rfl
  have hfA : (scoreBusiness [timeFactor .NIGHT] ctxExA).final_score = 100/27 := by
    rw [scoreBusiness]
    simp only [List.foldl_cons, List.foldl_nil, applyFactor, hbA, hpA, hw]
    norm_num [baseMetric, ctxExA]
  have hfB : (scoreBusiness [timeFactor .NIGHT] ctxExB).final_score = 2 := by
    rw [scoreBusiness]
    simp only [List.foldl_cons, List.foldl_nil, applyFactor, hbB, hpB]
    norm_num [baseMetric, ctxExB]
  have hcond : ¬ ((scoreBusiness [timeFactor .NIGHT] ctxExA).final_score ≤
      (scoreBusiness [timeFactor .NIGHT] ctxExB).final_score) := by
    rw [hfA, hfB]
    norm_num
  refine ⟨rfl, hbB, hpB, rfl, rfl, hfA, hfB, ?_, ?_⟩
  · rw [apply_contextual_factors, if_neg (by decide)]
    simp only [List.map_cons, List.map_nil, pySortByKey, pyInsertKey, if_neg hcond]
  · rw [hfA, hfB]
    norm_num

/-! ## C6: user-user similarity -/

theorem sumSq_nonneg (v : List ℚ) : 0 ≤ sumSq v := by
  rw [sumSq]
  induction v with
  | nil => simp [dotQ]
  | cons a w ih => simp only [dotQ]; nlinarith [sq_nonneg a]

theorem cs_step (a b d A B : ℚ) (hd : d ^ 2 ≤ A * B) (hA : 0 ≤ A) (hB : 0 ≤ B) :
    (a * b + d) ^ 2 ≤ (a * a + A) * (b * b + B) := by
  rcases eq_or_lt_of_le hB with hB0 | hB0
  · have hd0 : d = 0 := by nlinarith
    subst hd0
    nlinarith [mul_nonneg hA (sq_nonneg b), sq_nonneg (a * b)]
  · nlinarith [sq_nonneg (a * B - b * d), mul_nonneg (sq_nonneg b) (sub_nonneg.mpr hd),
      mul_nonneg (le_of_lt hB0) (sub_nonneg.mpr hd), sq_nonneg (a * b - d)]

theorem dotQ_sq_le (v : List ℚ) : ∀ w : List ℚ, dotQ v w ^ 2 ≤ sumSq v * sumSq w := by
  induction v with
  | nil => intro w; simp [dotQ, sumSq]
  | cons a vs ih =>
    intro w
    cases w with
    | nil =>
      simp only [dotQ, sumSq]
      nlinarith [sumSq_nonneg (a :: vs), sq_nonneg a]
    | cons b ws =>
      simpa only [dotQ, sumSq] using
        cs_step a b (dotQ vs ws) (sumSq vs) (sumSq ws) (by simpa [sumSq] using ih ws)
          (sumSq_nonneg vs) (sumSq_nonneg ws)

theorem cosineSim_bounds (v w : List ℚ) (hv : sumSq v ≠ 0) (hw : sumSq w ≠ 0) :
    -1 ≤ cosineSim v w ∧ cosineSim v w ≤ 1 := by
  have hv0 : 0 < sumSq v := lt_of_le_of_ne (sumSq_nonneg v) (Ne.symm hv)
  have hw0 : 0 < sumSq w := lt_of_le_of_ne (sumSq_nonneg w) (Ne.symm hw)
  have hvR : (0:ℝ) < ((sumSq v : ℚ) : ℝ) := by exact_mod_cast hv0
  have hwR : (0:ℝ) < ((sumSq w : ℚ) : ℝ) := by exact_mod_cast hw0
  have hdenom : 0 < Real.sqrt ((sumSq v : ℚ) : ℝ) * Real.sqrt ((sumSq w : ℚ) : ℝ) :=
    mul_pos (Real.sqrt_pos.mpr hvR) (Real.sqrt_pos.mpr hwR)
  have hsq : (((dotQ v w : ℚ) : ℝ)) ^ 2 ≤ ((sumSq v : ℚ) : ℝ) * ((sumSq w : ℚ) : ℝ) := by
    exact_mod_cast dotQ_sq_le v w
  have habs : |((dotQ v w : ℚ) : ℝ)| ≤
      Real.sqrt (((sumSq v : ℚ) : ℝ) * ((sumSq w : ℚ) : ℝ)) := by
    have h1 := Real.sqrt_le_sqrt hsq
    rwa [Real.sqrt_sq_eq_abs] at h1
  rw [Real.sqrt_mul (le_of_lt hvR)] at habs
  have hball : |cosineSim v w| ≤ 1 := by
    rw [cosineSim, abs_div, abs_of_pos hdenom]
    exact (div_le_one hdenom).mpr habs
  exact abs_le.mp hball

/-- C6: the similarity of two users is computed from the business→rating maps
of their last-30-days interactions; it is exactly 0 when they share fewer than
two businesses, otherwise it is the cosine similarity of their rating vectors
restricted to the shared businesses, and for non-degenerate restricted vectors
it lies in `[-1, 1]`. -/
theorem C6_user_similarity (log1 log2 : List CFInteraction) (now : ℚ) :
    ((commonKeys (buildRatings (get_user_interactions log1 now 30))
        (buildRatings (get_user_interactions log2 now 30))).length < 2 →
      calculate_user_similarity log1 log2 now = 0) ∧
    (2 ≤ (commonKeys (buildRatings (get_user_interactions log1 now 30))
        (buildRatings (get_user_interactions log2 now 30))).length →
      calculate_user_similarity log1 log2 now =
        cosineSim
          (ratingsVec (buildRatings (get_user_interactions log1 now 30))
            (commonKeys (buildRatings (get_user_interactions log1 now 30))
              (buildRatings (get_user_interactions log2 now 30))))
          (ratingsVec (buildRatings (get_user_interactions log2 now 30))
            (commonKeys (buildRatings (get_user_interactions log1 now 30))
              (buildRatings (get_user_interactions log2 now 30))))) ∧
    (2 ≤ (commonKeys (buildRatings (get_user_interactions log1 now 30))
        (buildRatings (get_user_interactions log2 now 30))).length →
      sumSq (ratingsVec (buildRatings (get_user_interactions log1 now 30))
        (commonKeys (buildRatings (get_user_interactions log1 now 30))
          (buildRatings (get_user_interactions log2 now 30)))) ≠ 0 →
      sumSq (ratingsVec (buildRatings (get_user_interactions log2 now 30))
        (commonKeys (buildRatings (get_user_interactions log1 now 30))
          (buildRatings (get_user_interactions log2 now 30)))) ≠ 0 →
      -1 ≤ calculate_user_similarity log1 log2 now ∧
        calculate_user_similarity log1 log2 now ≤ 1) := by
  have hcos : 2 ≤ (commonKeys (buildRatings (get_user_interactions log1 now 30))
      (buildRatings (get_user_interactions log2 now 30))).length →
      calculate_user_similarity log1 log2 now =
        cosineSim
          (ratingsVec (buildRatings (get_user_interactions log1 now 30))
            (commonKeys (buildRatings (get_user_interactions log1 now 30))
              (buildRatings (get_user_interactions log2 now 30))))
          (ratingsVec (buildRatings (get_user_interactions log2 now 30))
            (commonKeys (buildRatings (get_user_interactions log1 now 30))
              (buildRatings (get_user_interactions log2 now 30)))) := by
    intro hge
    simp only [calculate_user_similarity]
    rcases hi1 : get_user_interactions log1 now 30 with _ | ⟨a, as⟩
    · rw [hi1] at hge
      simp [buildRatings, commonKeys] at hge
    · rcases hi2 : get_user_interactions log2 now 30 with _ | ⟨b, bs⟩
      · rw [hi2] at hge
        simp [buildRatings, commonKeys] at hge
      · rw [hi1, hi2] at hge
        rw [if_neg (not_lt.mpr hge)]
  refine ⟨?_, hcos, ?_⟩
  · intro hlt
    simp only [calculate_user_similarity]
    rcases hi1 : get_user_interactions log1 now 30 with _ | ⟨a, as⟩
    · rfl
    · rcases hi2 : get_user_interactions log2 now 30 with _ | ⟨b, bs⟩
      · rfl
      · rw [hi1, hi2] at hlt
        rw [if_pos hlt]
  · intro hge hv hw
    rw [hcos hge]
    exact cosineSim_bounds _ _ hv hw

/-- Witness for C6: two users sharing ratings `[5,3]` and `[4,2]` on the same
two businesses (scenario C of the spec) have a similarity in `[-1, 1]`. -/
theorem C6_user_similarity_witness :
    2 ≤ (commonKeys (buildRatings (get_user_interactions cfLog1 1000 30))
          (buildRatings (get_user_interactions cfLog2 1000 30))).length ∧
    (-1 ≤ calculate_user_similarity cfLog1 cfLog2 1000 ∧
      calculate_user_similarity cfLog1 cfLog2 1000 ≤ 1) := by
  have h1 : get_user_interactions cfLog1 1000 30 = cfLog1 := by
    norm_num [get_user_interactions, cfLog1]
  have h2 : get_user_interactions cfLog2 1000 30 = cfLog2 := by
    norm_num [get_user_interactions, cfLog2]
  have hlen : 2 ≤ (commonKeys (buildRatings (get_user_interactions cfLog1 1000 30))
      (buildRatings (get_user_interactions cfLog2 1000 30))).length := by
    rw [h1, h2]
    decide
  have hr1 : ratingsVec (buildRatings cfLog1) (commonKeys (buildRatings cfLog1)
      (buildRatings cfLog2)) = [5, 3] := rfl
  have hr2 : ratingsVec (buildRatings cfLog2) (commonKeys (buildRatings cfLog1)
      (buildRatings cfLog2)) = [4, 2] := rfl
  refine ⟨hlen, (C6_user_similarity cfLog1 cfLog2 1000).2.2 hlen ?_ ?_⟩
  · rw [h1, h2, hr1]
    norm_num [sumSq, dotQ]
  · rw [h1, h2, hr2]
    norm_num [sumSq, dotQ]

/-! ## C7 and C10: recommendation failure semantics -/

theorem exceptBind_ok {e a b : Type} (x : a) (f : a → Except e b) :
    (Except.ok x : Except e a) >>= f = f x := rfl

theorem exceptBind_error {e a b : Type} (err : e) (f : a → Except e b) :
    (Except.error err : Except e a) >>= f = Except.error err := rfl

theorem exceptPure {e a : Type} (x : a) : (pure x : Except e a) = Except.ok x := rfl

/-- C7 counterexample: in `collaborative_filtering.py` no `try`/`except`
guards the store calls — when the cached-similar-users lookup raises, the
exception propagates out of `get_collaborative_recommendations` (modelled by
`.error ()`) instead of degrading to an empty list. -/
theorem C7_counterexample :
    get_collaborative_recommendations errStore 0 "u1" [] 10 = .error () := rfl

/-- C7 (amended): the simple module (the one the API imports) returns `[]`
for every input and never errors; the full module returns `.ok []` for a user
with an empty interaction log when the store responds (no cached similar
users, empty log); but a full-module store failure propagates to the caller
as an exception rather than degrading to `[]`. -/
theorem C7_failure_semantics (store : CFStore) (now : ℚ) (user_id : String)
    (exclude_businesses : List String) (limit : ℕ) (enabled connect_ok : Bool)
    (hcache : store.cachedSimilarUsers user_id = .ok none)
    (hlog : store.userLog user_id = .ok []) :
    get_collaborative_recommendations_simple enabled connect_ok user_id
      exclude_businesses limit = [] ∧
    get_collaborative_recommendations store now user_id exclude_businesses limit =
      .ok [] := by
  constructor
  · cases enabled <;> cases connect_ok <;> rfl
  · have hfsu : find_similar_users store now user_id 20 = .ok [] := by
      simp [find_similar_users, hcache, hlog, get_user_interactions,
        exceptBind_ok, exceptPure]
    simp [get_collaborative_recommendations, hfsu, exceptBind_ok, exceptPure]

/-- Witness for C7 with a concrete reachable-but-empty store. -/
theorem C7_failure_semantics_witness :
    get_collaborative_recommendations_simple true true "u1" [] 10 = [] ∧
    get_collaborative_recommendations okEmptyStore 0 "u1" [] 10 = .ok [] :=
  C7_failure_semantics okEmptyStore 0 "u1" [] 10 true true rfl rfl

/-- C10: in `collaborative_filtering_simple` (the module `upload_api` actually
imports), `get_collaborative_recommendations` returns the empty list for every
engine state, user, exclusion set and limit — the full recommendation
algorithm is never executed on this path. -/
theorem C10_simple_cf_always_empty (enabled connect_ok : Bool) (user_id : String)
    (exclude_businesses : List String) (limit : ℕ) :
    get_collaborative_recommendations_simple enabled connect_ok user_id
      exclude_businesses limit = [] := by
  cases enabled <;> cases connect_ok <;> rfl

/-! ## C9: invariants of `parse_business_from_text` -/

theorem jsonItemParse_valid (fr : ℚ → String) (m : List (String × JVal)) (b : ParsedBiz)
    (h : jsonItemParse fr m = .ok (some b)) : ValidParsed b := by
  rw [jsonItemParse] at h
  rcases hbn : stripJ (firstTruthy [getPy m "business_name", getPy m "business"]) with e | bn <;>
    rw [hbn] at h
  · rw [exceptBind_error] at h
    cases h
  rw [exceptBind_ok] at h
  rcases hnm : stripJ (firstTruthy [getPy m "name", getPy m "owner_name"]) with e | nm <;>
    rw [hnm] at h
  · rw [exceptBind_error] at h
    cases h
  rw [exceptBind_ok] at h
  rcases hct : stripJ (firstTruthy [getPy m "business_category", getPy m "category"]) with e | ct <;>
    rw [hct] at h
  · rw [exceptBind_error] at h
    cases h
  rw [exceptBind_ok] at h
  rcases hq : jsonCoordPair (jsonRecover fr (getPy m "latitude") (getPy m "longitude")
      (jsonLatLong m)) with ⟨_ | lat, _ | lon⟩ <;> rw [hq] at h <;> try dsimp only at h
  · rw [exceptPure] at h
    injection h with h
    cases h
  · rw [exceptPure] at h
    injection h with h
    cases h
  · rw [exceptPure] at h
    injection h with h
    cases h
  · split at h
    · rename_i hcond
      rw [exceptPure] at h
      injection h with h
      injection h with h
      subst h
      simp only [Bool.and_eq_true, Bool.not_eq_true', beq_eq_false_iff_ne] at hcond
      exact ⟨hcond.2, hcond.1.1, hcond.1.2⟩
    · rw [exceptPure] at h
      injection h with h
      cases h

theorem jsonBranch_valid (fr : ℚ → String) (j : PyJson) (l : List ParsedBiz)
    (h : jsonBranch fr j = .ok l) : ∀ b ∈ l, ValidParsed b := by
  cases j with
  | jdict m =>
    rw [jsonBranch] at h
    rcases hi : jsonItemParse fr m with e | ob <;> rw [hi] at h
    · rw [exceptBind_error] at h
      cases h
    · rw [exceptBind_ok] at h
      cases ob with
      | none =>
        rw [exceptPure] at h
        injection h with h
        subst h
        intro b hb
        cases hb
      | some x =>
        rw [exceptPure] at h
        injection h with h
        subst h
        intro b hb
        rw [List.mem_singleton.mp hb]
        exact jsonItemParse_valid fr m x hi
  | jscalar =>
    rw [jsonBranch] at h
    rw [exceptPure] at h
    injection h with h
    subst h
    intro b hb
    cases hb
  | jlist ms =>
    rw [jsonBranch] at h
    suffices hgen : ∀ (ms : List (List (String × JVal))) (acc : List ParsedBiz),
        (∀ b ∈ acc, ValidParsed b) →
        (ms.foldlM (fun acc m => do
          match ← jsonItemParse fr m with
          | some b => return acc ++ [b]
          | none => return acc) acc = Except.ok l) →
        ∀ b ∈ l, ValidParsed b by
      exact hgen ms [] (by intro b hb; cases hb) h
    intro ms
    induction ms with
    | nil =>
      intro acc hacc hfold
      rw [List.foldlM_nil, exceptPure] at hfold
      injection hfold with hfold
      subst hfold
      exact hacc
    | cons m rest ih =>
      intro acc hacc hfold
      rw [List.foldlM_cons] at hfold
      rcases hi : jsonItemParse fr m with e | ob <;> rw [hi] at hfold
      · rw [exceptBind_error] at hfold
        cases hfold
      · rw [exceptBind_ok] at hfold
        cases ob with
        | none =>
          dsimp only at hfold
          rw [exceptPure, exceptBind_ok] at hfold
          exact ih acc hacc hfold
        | some x =>
          dsimp only at hfold
          rw [exceptPure, exceptBind_ok] at hfold
          refine ih (acc ++ [x]) ?_ hfold
          intro b hb
          rcases List.mem_append.mp hb with hb | hb
          · exact hacc b hb
          · rw [List.mem_singleton.mp hb]
            exact jsonItemParse_valid fr m x hi

theorem kvBranchParse_valid (fr : ℚ → String) (raw : String) (b : ParsedBiz)
    (h : kvBranchParse fr raw = some b) : ValidParsed b := by
  rw [kvBranchParse] at h
  try dsimp only at h
  repeat split at h
  all_goals cases h
  all_goals rename_i hcond
  all_goals simp only [Bool.and_eq_true, Bool.not_eq_true', beq_eq_false_iff_ne] at hcond
  all_goals exact ⟨hcond.2, hcond.1.1, hcond.1.2⟩

theorem csvSixParse_valid (fr : ℚ → String) (parts : List String) (b : ParsedBiz)
    (h : csvSixParse fr parts = some b) : ValidParsed b := by
  rw [csvSixParse] at h
  try dsimp only at h
  split at h
  · cases h
  · rename_i hempty
    rcases hlat : parseDecimal (parts.getD 2 "") with _ | lat <;>
      rcases hlon : parseDecimal (parts.getD 3 "") with _ | lon <;>
        rw [hlat, hlon] at h <;> try dsimp only at h
    all_goals try cases h
    split at h
    · rename_i hvalid
      cases h
      simp only [Bool.or_eq_true, beq_iff_eq] at hempty
      push_neg at hempty
      exact ⟨hvalid, hempty.1.1.1.2, hempty.2⟩
    · cases h

theorem csvFiveParse_valid (fr : ℚ → String) (parts : List String) (b : ParsedBiz)
    (h : csvFiveParse fr parts = some b) : ValidParsed b := by
  rw [csvFiveParse] at h
  try dsimp only at h
  rcases hc : parse_lat_lng (parts.getD 2 "") with _ | ⟨lat, lon⟩ <;>
    rw [hc] at h <;> try dsimp only at h
  · cases h
  · split at h
    · cases h
    · split at h
      · rename_i hempty hvalid
        cases h
        simp only [Bool.or_eq_true, beq_iff_eq] at hempty
        push_neg at hempty
        exact ⟨hvalid, hempty.1.2, hempty.2⟩
      · cases h

theorem csvLineParse_valid (fr : ℚ → String) (l : List Char) (b : ParsedBiz)
    (h : csvLineParse fr l = some b) : ValidParsed b := by
  rw [csvLineParse] at h
  try dsimp only at h
  split at h
  · exact csvSixParse_valid fr _ b h
  · split at h
    · exact csvFiveParse_valid fr _ b h
    · cases h

theorem csvBranch_valid (fr : ℚ → String) (raw : String) :
    ∀ b ∈ csvBranch fr raw, ValidParsed b := by
  rw [csvBranch]
  suffices hgen : ∀ (lines : List (List Char)) (acc : List ParsedBiz),
      (∀ b ∈ acc, ValidParsed b) →
      ∀ b ∈ lines.foldl (fun acc lineL =>
        let l := stripList lineL
        if l.isEmpty then acc
        else if containsL "name,business_name,lat_long".data (lowerL l) then acc
        else
          match csvLineParse fr l with
          | some b => acc ++ [b]
          | none => acc) acc, ValidParsed b by
    exact hgen _ [] (by intro b hb; cases hb)
  intro lines
  induction lines with
  | nil => intro acc hacc; exact hacc
  | cons lineL rest ih =>
    intro acc hacc
    rw [List.foldl_cons]
    dsimp only
    split
    · exact ih acc hacc
    · split
      · exact ih acc hacc
      · rcases hl : csvLineParse fr (stripList lineL) with _ | x
        · exact ih acc hacc
        · refine ih (acc ++ [x]) ?_
          intro b hb
          rcases List.mem_append.mp hb with hb | hb
          · exact hacc b hb
          · rw [List.mem_singleton.mp hb]
            exact csvLineParse_valid fr _ x hl

theorem kvOrCsv_valid (fr : ℚ → String) (raw : String) :
    ∀ b ∈ kvOrCsv fr raw, ValidParsed b := by
  rw [kvOrCsv]
  split
  · rcases hkv : kvBranchParse fr raw with _ | x
    · exact csvBranch_valid fr raw
    · intro b hb
      rw [List.mem_singleton.mp hb]
      exact kvBranchParse_valid fr raw x hkv
  · exact csvBranch_valid fr raw

/-- C9 (amended): every record `parse_business_from_text` returns has in-range
coordinates, a non-empty `business_name` and a non-empty category — entries
failing a required-field or coordinate check are dropped; the owner name may
be empty (the JSON and key:value branches do not require it); and on any
non-JSON payload the function cannot raise (only the JSON branch can, via
`.strip()` on a truthy non-string field). -/
theorem C9_parse_invariants (floatRepr : ℚ → String) (t : TextBlob) :
    (∀ l, parse_business_from_text floatRepr t = .ok l →
      ∀ b ∈ l, validate_coordinates b.latitude b.longitude = true ∧
        b.business_name ≠ "" ∧ b.business_category ≠ "") ∧
    (t.asJson = none → ∃ l, parse_business_from_text floatRepr t = .ok l) := by
  constructor
  · intro l hl b hb
    rw [parse_business_from_text] at hl
    split at hl
    · injection hl with hl
      subst hl
      cases hb
    · split at hl
      · rename_i j hj
        rcases hjb : jsonBranch floatRepr j with e | bs <;> rw [hjb] at hl
        · rw [exceptBind_error] at hl
          cases hl
        · rw [exceptBind_ok] at hl
          split at hl
          · rw [exceptPure] at hl
            injection hl with hl
            subst hl
            exact kvOrCsv_valid floatRepr _ b hb
          · rw [exceptPure] at hl
            injection hl with hl
            subst hl
            exact jsonBranch_valid floatRepr j bs hjb b hb
      · injection hl with hl
        subst hl
        exact kvOrCsv_valid floatRepr _ b hb
  · intro hjson
    rw [parse_business_from_text, hjson]
    split
    · exact ⟨[], rfl⟩
    · exact ⟨_, rfl⟩

/-- C9 counterexample: (1) a JSON payload with no owner field parses to a
record whose owner name is empty, contradicting the claimed non-empty owner
name; (2) a JSON payload whose `business_name` is the number `5` makes
`parse_business_from_text` raise (`(5).strip()` → `AttributeError`, modelled
`.error ()`), contradicting "the function never raises". -/
theorem C9_counterexample :
    (parse_business_from_text floatReprX blobNoOwner).map (List.map ParsedBiz.name) =
      .ok [""] ∧
    parse_business_from_text floatReprX blobNumName = .error () :=
  ⟨rfl, rfl⟩

/-- Witness for C9: on a concrete non-JSON payload the parser returns without
error, as the amended claim promises. -/
theorem C9_parse_invariants_witness :
    ∃ l, parse_business_from_text floatReprX { raw := "x", asJson := none } = .ok l :=
  (C9_parse_invariants floatReprX { raw := "x", asJson := none }).2 rfl

/-! ## C8: string lemmas for the three-format round-trip -/

theorem dropWhile_id_of_head {p : Char → Bool} {l : List Char}
    (h : l.head?.all (fun c => !p c) = true) : l.dropWhile p = l := by
  cases l with
  | nil => rfl
  | cons a as =>
    simp only [List.head?_cons, Option.all_some, Bool.not_eq_true'] at h
    rw [List.dropWhile_cons, if_neg (by simp [h])]

theorem head?_append_left {α : Type} {u : List α} (v : List α) (h : u ≠ []) :
    (u ++ v).head? = u.head? := by
  cases u with
  | nil => exact absurd rfl h
  | cons a as => rfl

theorem ne_nil_of_head?_some {α : Type} {l : List α} {a : α}
    (h : l.head? = some a) : l ≠ [] := by
  intro he
  rw [he] at h
  cases h

theorem getLast?_append_right {α : Type} (u : List α) {v : List α} (h : v ≠ []) :
    (u ++ v).getLast? = v.getLast? := by
  rw [← List.head?_reverse, ← List.head?_reverse, List.reverse_append]
  exact head?_append_left _ (by simpa using h)

theorem stripList_eq_self {l : List Char}
    (h1 : l.head?.all (fun c => !isSpaceChar c) = true)
    (h2 : l.getLast?.all (fun c => !isSpaceChar c) = true) : stripList l = l := by
  rw [stripList, dropWhile_id_of_head h1,
    dropWhile_id_of_head (by rw [List.head?_reverse]; exact h2), List.reverse_reverse]

theorem clean_parts {s : String} (h : CleanStr s) :
    s.data ≠ [] ∧
    s.data.head?.all (fun c => !isSpaceChar c) = true ∧
    s.data.getLast?.all (fun c => !isSpaceChar c) = true ∧
    s.data.all (fun c => !(c == ',') && !(c == '\n') && !(c == quoteChar)) = true := by
  rw [CleanStr, cleanChars] at h
  simp only [Bool.and_eq_true] at h
  obtain ⟨⟨⟨hne, hh⟩, hl⟩, hall⟩ := h
  refine ⟨?_, ?_, ?_, hall⟩
  · intro he
    rw [he] at hne
    simp at hne
  · rcases hd : s.data.head? with _ | c
    · rfl
    · rw [hd] at hh
      simpa using hh
  · rcases hd : s.data.getLast? with _ | c
    · rfl
    · rw [hd] at hl
      simpa using hl

theorem clean_ne {s : String} (h : CleanStr s) : s.data ≠ [] := (clean_parts h).1

theorem clean_ne_str {s : String} (h : CleanStr s) : s ≠ "" := by
  intro he
  exact (clean_parts h).1 (by subst he; rfl)

theorem clean_no_comma {s : String} (h : CleanStr s) :
    s.data.all (fun c => !(c == ',')) = true := by
  have hall := (clean_parts h).2.2.2
  rw [List.all_eq_true] at hall ⊢
  intro c hc
  have hx := hall c hc
  simp only [Bool.and_eq_true] at hx
  exact hx.1.1

theorem clean_no_newline {s : String} (h : CleanStr s) :
    s.data.all (fun c => !(c == '\n')) = true := by
  have hall := (clean_parts h).2.2.2
  rw [List.all_eq_true] at hall ⊢
  intro c hc
  have hx := hall c hc
  simp only [Bool.and_eq_true] at hx
  exact hx.1.2

theorem clean_no_quote {s : String} (h : CleanStr s) :
    s.data.all (fun c => !(c == quoteChar)) = true := by
  have hall := (clean_parts h).2.2.2
  rw [List.all_eq_true] at hall ⊢
  intro c hc
  have hx := hall c hc
  simp only [Bool.and_eq_true] at hx
  exact hx.2

theorem stripList_clean {s : String} (h : CleanStr s) : stripList s.data = s.data :=
  stripList_eq_self (clean_parts h).2.1 (clean_parts h).2.2.1

theorem pyStrip_clean {s : String} (h : CleanStr s) : pyStrip s = s := by
  rw [pyStrip, stripList_clean h]

theorem headAll_of_all {p : Char → Bool} {l : List Char} (h : l.all p = true) :
    l.head?.all p = true := by
  cases l with
  | nil => rfl
  | cons a as =>
    simp only [List.all_cons, Bool.and_eq_true] at h
    simpa using h.1

theorem stripQuotesList_id {l : List Char}
    (h : l.all (fun c => !(c == quoteChar)) = true) : stripQuotesList l = l := by
  have h2 : l.reverse.all (fun c => !(c == quoteChar)) = true := by
    simpa [List.all_reverse] using h
  rw [stripQuotesList, dropWhile_id_of_head (headAll_of_all h),
    dropWhile_id_of_head (headAll_of_all h2), List.reverse_reverse]

theorem stripList_cons_space (l : List Char) : stripList (' ' :: l) = stripList l := by
  have hd : (' ' :: l).dropWhile isSpaceChar = l.dropWhile isSpaceChar := by
    rw [List.dropWhile_cons, if_pos (by decide)]
  rw [stripList, stripList, hd]

theorem strMk_ne_empty {l : List Char} (h : l ≠ []) : ((⟨l⟩ : String) == "") = false :=
  beq_eq_false_iff_ne.mpr (fun he => h (congrArg String.data he))

theorem listStartsWith_append (pat v : List Char) :
    listStartsWith pat (pat ++ v) = true := by
  induction pat with
  | nil => rfl
  | cons a as ih => simp [listStartsWith, ih]

theorem containsL_of_startsWith (pat l : List Char) (h : listStartsWith pat l = true) :
    containsL pat l = true := by
  cases l with
  | nil => exact h
  | cons c cs =>
    have he : containsL pat (c :: cs) = (listStartsWith pat (c :: cs) || containsL pat cs) := rfl
    rw [he, h, Bool.true_or]

theorem containsL_front (pat v : List Char) : containsL pat (pat ++ v) = true :=
  containsL_of_startsWith _ _ (listStartsWith_append pat v)

theorem containsL_cons_of (pat : List Char) (c : Char) (l : List Char)
    (h : containsL pat l = true) : containsL pat (c :: l) = true := by
  have he : containsL pat (c :: l) = (listStartsWith pat (c :: l) || containsL pat l) := rfl
  rw [he, h, Bool.or_true]

theorem containsL_append_of (pat u l : List Char) (h : containsL pat l = true) :
    containsL pat (u ++ l) = true := by
  induction u with
  | nil => exact h
  | cons a as ih => exact containsL_cons_of pat a (as ++ l) ih

theorem splitOnChar_no_sep (sep : Char) (xs : List Char)
    (h : xs.all (fun c => !(c == sep)) = true) : splitOnChar sep xs = [xs] := by
  induction xs with
  | nil => rfl
  | cons c cs ih =>
    simp only [List.all_cons, Bool.and_eq_true, Bool.not_eq_true'] at h
    have hr := ih h.2
    rw [show splitOnChar sep (c :: cs) = (if c == sep then [] :: splitOnChar sep cs else
        match splitOnChar sep cs with | [] => [[c]] | a :: t => (c :: a) :: t) from rfl]
    rw [hr, if_neg (by simp [h.1])]

theorem splitOnChar_append_sep (sep : Char) (xs ys : List Char)
    (h : xs.all (fun c => !(c == sep)) = true) :
    splitOnChar sep (xs ++ sep :: ys) = xs :: splitOnChar sep ys := by
  induction xs with
  | nil =>
    rw [show splitOnChar sep ([] ++ sep :: ys) = (if sep == sep then [] :: splitOnChar sep ys
        else match splitOnChar sep ys with | [] => [[sep]] | a :: t => (sep :: a) :: t) from rfl]
    rw [if_pos (by simp)]
  | cons c cs ih =>
    simp only [List.all_cons, Bool.and_eq_true, Bool.not_eq_true'] at h
    have hr := ih h.2
    rw [show splitOnChar sep ((c :: cs) ++ sep :: ys) =
        (if c == sep then [] :: splitOnChar sep (cs ++ sep :: ys) else
        match splitOnChar sep (cs ++ sep :: ys) with
        | [] => [[c]] | a :: t => (c :: a) :: t) from rfl]
    rw [hr, if_neg (by simp [h.1])]

theorem splitFirstColon_append (k v : List Char)
    (h : k.all (fun c => !(c == ':')) = true) :
    splitFirstColon (k ++ ':' :: v) = some (k, v) := by
  induction k with
  | nil =>
    rw [show splitFirstColon ([] ++ ':' :: v) = (if ':' == ':' then some ([], v) else
        match splitFirstColon v with | some (a, b) => some (':' :: a, b) | none => none) from rfl]
    rw [if_pos (by simp)]
  | cons c cs ih =>
    simp only [List.all_cons, Bool.and_eq_true, Bool.not_eq_true'] at h
    have hr := ih h.2
    rw [show splitFirstColon ((c :: cs) ++ ':' :: v) =
        (if c == ':' then some ([], cs ++ ':' :: v) else
        match splitFirstColon (cs ++ ':' :: v) with
        | some (a, b) => some (c :: a, b) | none => none) from rfl]
    rw [hr, if_neg (by simp [h.1])]

theorem lineAll_no_newline (kd : List Char) (val : String)
    (hkd : kd.all (fun c => !(c == '\n')) = true) (hv : CleanStr val) :
    (kd ++ ' ' :: val.data).all (fun c => !(c == '\n')) = true := by
  simp only [List.all_append, List.all_cons, Bool.and_eq_true]
  exact ⟨hkd, by decide, clean_no_newline hv⟩

theorem kvRepRaw_lines (own biz cat tags latS lonS : String)
    (hown : CleanStr own) (hbiz : CleanStr biz) (hcat : CleanStr cat)
    (htags : CleanStr tags) (hlatS : CleanStr latS) (hlonS : CleanStr lonS) :
    splitOnChar '\n' (kvRepRaw own biz cat tags latS lonS) =
      ["business_name".data ++ ':' :: ' ' :: biz.data,
       "owner_name".data ++ ':' :: ' ' :: own.data,
       "business_category".data ++ ':' :: ' ' :: cat.data,
       "business_tags".data ++ ':' :: ' ' :: tags.data,
       "latitude".data ++ ':' :: ' ' :: latS.data,
       "longitude".data ++ ':' :: ' ' :: lonS.data] := by
  rw [show kvRepRaw own biz cat tags latS lonS =
      ("business_name:".data ++ ' ' :: biz.data) ++ '\n' ::
      (("owner_name:".data ++ ' ' :: own.data) ++ '\n' ::
      (("business_category:".data ++ ' ' :: cat.data) ++ '\n' ::
      (("business_tags:".data ++ ' ' :: tags.data) ++ '\n' ::
      (("latitude:".data ++ ' ' :: latS.data) ++ '\n' ::
      ("longitude:".data ++ ' ' :: lonS.data))))) from by simp [kvRepRaw]]
  rw [splitOnChar_append_sep '\n' _ _ (lineAll_no_newline _ _ (by decide) hbiz)]
  rw [splitOnChar_append_sep '\n' _ _ (lineAll_no_newline _ _ (by decide) hown)]
  rw [splitOnChar_append_sep '\n' _ _ (lineAll_no_newline _ _ (by decide) hcat)]
  rw [splitOnChar_append_sep '\n' _ _ (lineAll_no_newline _ _ (by decide) htags)]
  rw [splitOnChar_append_sep '\n' _ _ (lineAll_no_newline _ _ (by decide) hlatS)]
  rw [splitOnChar_no_sep '\n' _ (lineAll_no_newline _ _ (by decide) hlonS)]
  rfl

theorem kvPairs_step (kv : List (String × String)) (kd : List Char) (val : String)
    (hkdc : kd.all (fun c => !(c == ':')) = true)
    (hkdh : kd.head?.all (fun c => !isSpaceChar c) = true)
    (hkdne : kd ≠ [])
    (hv : CleanStr val) :
    kvStep kv (kd ++ ':' :: ' ' :: val.data) = kvSet kv ⟨canonKeyL kd⟩ val := by
  have hlast : (kd ++ ':' :: ' ' :: val.data).getLast? = val.data.getLast? := by
    rw [show kd ++ ':' :: ' ' :: val.data = (kd ++ [':', ' ']) ++ val.data from by simp]
    exact getLast?_append_right _ (clean_ne hv)
  have hstrip : stripList (kd ++ ':' :: ' ' :: val.data) = kd ++ ':' :: ' ' :: val.data :=
    stripList_eq_self (by rw [head?_append_left _ hkdne]; exact hkdh)
      (by rw [hlast]; exact (clean_parts hv).2.2.1)
  rw [kvStep, hstrip]
  rw [if_neg (by simp [List.isEmpty_iff, List.append_eq_nil, hkdne])]
  rw [splitFirstColon_append _ _ hkdc]
  show kvSet kv ⟨canonKeyL kd⟩ ⟨stripList (' ' :: val.data)⟩ = kvSet kv ⟨canonKeyL kd⟩ val
  rw [stripList_cons_space, stripList_clean hv]

theorem kvPairs_rep (own biz cat tags latS lonS : String)
    (hown : CleanStr own) (hbiz : CleanStr biz) (hcat : CleanStr cat)
    (htags : CleanStr tags) (hlatS : CleanStr latS) (hlonS : CleanStr lonS) :
    kvPairs ⟨kvRepRaw own biz cat tags latS lonS⟩ =
      [("business_name", biz), ("owner_name", own), ("business_category", cat),
       ("business_tags", tags), ("latitude", latS), ("longitude", lonS)] := by
  rw [kvPairs]
  rw [show (⟨kvRepRaw own biz cat tags latS lonS⟩ : String).data =
      kvRepRaw own biz cat tags latS lonS from rfl]
  rw [kvRepRaw_lines own biz cat tags latS lonS hown hbiz hcat htags hlatS hlonS]
  rw [List.foldl_cons, List.foldl_cons, List.foldl_cons, List.foldl_cons,
    List.foldl_cons, List.foldl_cons, List.foldl_nil]
  rw [kvPairs_step _ _ _ (by decide) (by decide) (by decide) hlonS]
  rw [kvPairs_step _ _ _ (by decide) (by decide) (by decide) hlatS]
  rw [kvPairs_step _ _ _ (by decide) (by decide) (by decide) htags]
  rw [kvPairs_step _ _ _ (by decide) (by decide) (by decide) hcat]
  rw [kvPairs_step _ _ _ (by decide) (by decide) (by decide) hown]
  rw [kvPairs_step _ _ _ (by decide) (by decide) (by decide) hbiz]
  rfl

theorem isEmpty_false_of_ne {α : Type} {l : List α} (h : l ≠ []) : l.isEmpty = false := by
  cases l with
  | nil => exact absurd rfl h
  | cons a as => rfl

theorem kvBranchParse_rep (floatRepr : ℚ → String) (own biz cat tags latS lonS : String)
    (lat lon : ℚ)
    (hown : CleanStr own) (hbiz : CleanStr biz) (hcat : CleanStr cat)
    (htags : CleanStr tags) (hlatS : CleanStr latS) (hlonS : CleanStr lonS)
    (hlat : parseDecimal latS = some lat) (hlon : parseDecimal lonS = some lon)
    (hval : validate_coordinates lat lon = true) :
    kvBranchParse floatRepr ⟨kvRepRaw own biz cat tags latS lonS⟩ =
      some (canonicalRecord floatRepr own biz cat tags lat lon) := by
  have hkv := kvPairs_rep own biz cat tags latS lonS hown hbiz hcat htags hlatS hlonS
  rw [kvBranchParse, hkv]
  simp +decide [kvGet, kvGetD, canonicalRecord, hlat, hlon, hval,
    beq_eq_false_iff_ne.mpr (clean_ne_str hbiz),
    beq_eq_false_iff_ne.mpr (clean_ne_str hcat),
    beq_eq_false_iff_ne.mpr (clean_ne_str hlatS),
    beq_eq_false_iff_ne.mpr (clean_ne_str hlonS)]

theorem kvRepRaw_head (own biz cat tags latS lonS : String) :
    (kvRepRaw own biz cat tags latS lonS).head? = some 'b' := rfl

theorem kvRepRaw_last (own biz cat tags latS lonS : String) (hlonS : CleanStr lonS) :
    (kvRepRaw own biz cat tags latS lonS).getLast? = lonS.data.getLast? := by
  rw [show kvRepRaw own biz cat tags latS lonS =
      ("business_name:".data ++ ' ' :: biz.data ++ '\n' ::
       ("owner_name:".data ++ ' ' :: own.data ++ '\n' ::
        ("business_category:".data ++ ' ' :: cat.data ++ '\n' ::
         ("business_tags:".data ++ ' ' :: tags.data ++ '\n' ::
          ("latitude:".data ++ ' ' :: latS.data ++ '\n' ::
           ("longitude:".data ++ [' '])))))) ++ lonS.data from by simp [kvRepRaw]]
  exact getLast?_append_right _ (clean_ne hlonS)

theorem kvRepRaw_marker1 (own biz cat tags latS lonS : String) :
    containsL "business_name:".data (kvRepRaw own biz cat tags latS lonS) = true := by
  rw [kvRepRaw]
  exact containsL_front _ _

theorem kvRepRaw_marker2 (own biz cat tags latS lonS : String) :
    containsL "business_category:".data (kvRepRaw own biz cat tags latS lonS) = true := by
  rw [show kvRepRaw own biz cat tags latS lonS =
      ("business_name:".data ++ ' ' :: biz.data ++ '\n' ::
       ("owner_name:".data ++ ' ' :: own.data ++ ['\n'])) ++
      ("business_category:".data ++
       (' ' :: cat.data ++ '\n' ::
        ("business_tags:".data ++ ' ' :: tags.data ++ '\n' ::
         ("latitude:".data ++ ' ' :: latS.data ++ '\n' ::
          ("longitude:".data ++ ' ' :: lonS.data))))) from by simp [kvRepRaw]]
  exact containsL_append_of _ _ _ (containsL_front _ _)

theorem parse_kvRep (floatRepr : ℚ → String) (own biz cat tags latS lonS : String)
    (lat lon : ℚ)
    (hown : CleanStr own) (hbiz : CleanStr biz) (hcat : CleanStr cat)
    (htags : CleanStr tags) (hlatS : CleanStr latS) (hlonS : CleanStr lonS)
    (hlat : parseDecimal latS = some lat) (hlon : parseDecimal lonS = some lon)
    (hval : validate_coordinates lat lon = true) :
    parse_business_from_text floatRepr (kvRep own biz cat tags latS lonS) =
      .ok [canonicalRecord floatRepr own biz cat tags lat lon] := by
  have hne : kvRepRaw own biz cat tags latS lonS ≠ [] :=
    ne_nil_of_head?_some (kvRepRaw_head own biz cat tags latS lonS)
  have hstrip : pyStrip ⟨kvRepRaw own biz cat tags latS lonS⟩ =
      ⟨kvRepRaw own biz cat tags latS lonS⟩ := by
    rw [pyStrip]
    rw [show (⟨kvRepRaw own biz cat tags latS lonS⟩ : String).data =
        kvRepRaw own biz cat tags latS lonS from rfl]
    rw [stripList_eq_self (by rw [kvRepRaw_head]; rfl)
      (by rw [kvRepRaw_last own biz cat tags latS lonS hlonS]
          exact (clean_parts hlonS).2.2.1)]
  have hkvOr : kvOrCsv floatRepr ⟨kvRepRaw own biz cat tags latS lonS⟩ =
      [canonicalRecord floatRepr own biz cat tags lat lon] := by
    rw [kvOrCsv]
    rw [show (⟨kvRepRaw own biz cat tags latS lonS⟩ : String).data =
        kvRepRaw own biz cat tags latS lonS from rfl]
    rw [if_pos (by rw [kvRepRaw_marker1, kvRepRaw_marker2]; rfl)]
    rw [kvBranchParse_rep floatRepr own biz cat tags latS lonS lat lon
      hown hbiz hcat htags hlatS hlonS hlat hlon hval]
  rw [parse_business_from_text]
  rw [show (kvRep own biz cat tags latS lonS).raw =
      (⟨kvRepRaw own biz cat tags latS lonS⟩ : String) from rfl]
  rw [show (kvRep own biz cat tags latS lonS).asJson = (none : Option PyJson) from rfl]
  rw [hstrip]
  rw [if_neg (by simp [strMk_ne_empty hne])]
  rw [hkvOr]

theorem jTruthy_jstr {s : String} (h : s ≠ "") : jTruthy (.jstr s) = true := by
  simp [jTruthy, h]

theorem jsonItemParse_rep (floatRepr : ℚ → String) (own biz cat tags latS lonS : String)
    (lat lon : ℚ)
    (hown : CleanStr own) (hbiz : CleanStr biz) (hcat : CleanStr cat)
    (htags : CleanStr tags)
    (hval : validate_coordinates lat lon = true) :
    jsonItemParse floatRepr (jsonRepFields own biz cat tags latS lonS lat lon) =
      .ok (some (canonicalRecord floatRepr own biz cat tags lat lon)) := by
  have h1 : firstTruthy [getPy (jsonRepFields own biz cat tags latS lonS lat lon) "business_name",
      getPy (jsonRepFields own biz cat tags latS lonS lat lon) "business"] = .jstr biz := by
    rw [show getPy (jsonRepFields own biz cat tags latS lonS lat lon) "business_name" =
        some (.jstr biz) from rfl]
    simp [firstTruthy, jTruthy_jstr (clean_ne_str hbiz)]
  have h2 : firstTruthy [getPy (jsonRepFields own biz cat tags latS lonS lat lon) "name",
      getPy (jsonRepFields own biz cat tags latS lonS lat lon) "owner_name"] = .jstr own := by
    rw [show getPy (jsonRepFields own biz cat tags latS lonS lat lon) "name" =
        some (.jstr own) from rfl]
    simp [firstTruthy, jTruthy_jstr (clean_ne_str hown)]
  have h3 : firstTruthy [getPy (jsonRepFields own biz cat tags latS lonS lat lon) "business_category",
      getPy (jsonRepFields own biz cat tags latS lonS lat lon) "category"] = .jstr cat := by
    rw [show getPy (jsonRepFields own biz cat tags latS lonS lat lon) "business_category" =
        some (.jstr cat) from rfl]
    simp [firstTruthy, jTruthy_jstr (clean_ne_str hcat)]
  have h4 : firstTruthy [getPy (jsonRepFields own biz cat tags latS lonS lat lon) "business_tags",
      getPy (jsonRepFields own biz cat tags latS lonS lat lon) "tags"] = .jstr tags := by
    rw [show getPy (jsonRepFields own biz cat tags latS lonS lat lon) "business_tags" =
        some (.jstr tags) from rfl]
    simp [firstTruthy, jTruthy_jstr (clean_ne_str htags)]
  have hco : jsonCoordPair (jsonRecover floatRepr
      (getPy (jsonRepFields own biz cat tags latS lonS lat lon) "latitude")
      (getPy (jsonRepFields own biz cat tags latS lonS lat lon) "longitude")
      (jsonLatLong (jsonRepFields own biz cat tags latS lonS lat lon))) = (some lat, some lon) := rfl
  rw [jsonItemParse, h1, h2, h3, h4, hco]
  rw [show stripJ (JVal.jstr biz) = Except.ok (pyStrip biz) from rfl, pyStrip_clean hbiz]
  rw [show stripJ (JVal.jstr own) = Except.ok (pyStrip own) from rfl, pyStrip_clean hown]
  rw [show stripJ (JVal.jstr cat) = Except.ok (pyStrip cat) from rfl, pyStrip_clean hcat]
  rw [exceptBind_ok, exceptBind_ok, exceptBind_ok]
  simp [tagStr, canonicalRecord, hval, exceptPure,
    beq_eq_false_iff_ne.mpr (clean_ne_str hbiz),
    beq_eq_false_iff_ne.mpr (clean_ne_str hcat)]

theorem renderJson_strip (floatRepr : ℚ → String) (fields : List (String × JVal)) :
    stripList (renderJson floatRepr fields) = renderJson floatRepr fields := by
  apply stripList_eq_self
  · rfl
  · rw [renderJson]
    rw [show lbrace :: renderFields floatRepr fields ++ [rbrace] =
        (lbrace :: renderFields floatRepr fields) ++ [rbrace] from by simp]
    rw [getLast?_append_right _ (by simp)]
    rfl

theorem parse_jsonRep (floatRepr : ℚ → String) (own biz cat tags latS lonS : String)
    (lat lon : ℚ)
    (hown : CleanStr own) (hbiz : CleanStr biz) (hcat : CleanStr cat)
    (htags : CleanStr tags)
    (hval : validate_coordinates lat lon = true) :
    parse_business_from_text floatRepr (jsonRep floatRepr own biz cat tags latS lonS lat lon) =
      .ok [canonicalRecord floatRepr own biz cat tags lat lon] := by
  have hbr : jsonBranch floatRepr (.jdict (jsonRepFields own biz cat tags latS lonS lat lon)) =
      .ok [canonicalRecord floatRepr own biz cat tags lat lon] := by
    simp only [jsonBranch]
    rw [jsonItemParse_rep floatRepr own biz cat tags latS lonS lat lon hown hbiz hcat htags hval]
    rw [exceptBind_ok]
    rfl
  have hne : renderJson floatRepr (jsonRepFields own biz cat tags latS lonS lat lon) ≠ [] := by
    rw [renderJson]
    simp
  rw [parse_business_from_text]
  rw [show (jsonRep floatRepr own biz cat tags latS lonS lat lon).raw =
      (⟨renderJson floatRepr (jsonRepFields own biz cat tags latS lonS lat lon)⟩ : String) from rfl]
  rw [show (jsonRep floatRepr own biz cat tags latS lonS lat lon).asJson =
      some (PyJson.jdict (jsonRepFields own biz cat tags latS lonS lat lon)) from rfl]
  rw [show pyStrip (⟨renderJson floatRepr (jsonRepFields own biz cat tags latS lonS lat lon)⟩ : String) =
      (⟨renderJson floatRepr (jsonRepFields own biz cat tags latS lonS lat lon)⟩ : String) from by
    rw [pyStrip]
    rw [show (⟨renderJson floatRepr (jsonRepFields own biz cat tags latS lonS lat lon)⟩ : String).data =
        renderJson floatRepr (jsonRepFields own biz cat tags latS lonS lat lon) from rfl]
    rw [renderJson_strip]]
  rw [if_neg (by simp [strMk_ne_empty hne])]
  dsimp only
  rw [hbr, exceptBind_ok]
  rw [if_neg (by simp)]
  rfl

theorem csvRepRaw_no_newline (own biz cat tags latS lonS : String)
    (hown : CleanStr own) (hbiz : CleanStr biz) (hcat : CleanStr cat)
    (htags : CleanStr tags) (hlatS : CleanStr latS) (hlonS : CleanStr lonS) :
    (csvRepRaw own biz cat tags latS lonS).all (fun c => !(c == '\n')) = true := by
  rw [csvRepRaw]
  simp only [List.all_append, List.all_cons, Bool.and_eq_true]
  exact ⟨⟨⟨⟨⟨clean_no_newline hown, by decide, clean_no_newline hbiz⟩,
    by decide, clean_no_newline hlatS⟩, by decide, clean_no_newline hlonS⟩,
    by decide, clean_no_newline hcat⟩, by decide, clean_no_newline htags⟩

theorem csvRepRaw_ne (own biz cat tags latS lonS : String) (hown : CleanStr own) :
    csvRepRaw own biz cat tags latS lonS ≠ [] := by
  rw [csvRepRaw]
  simp [List.append_eq_nil]

theorem csvRepRaw_strip (own biz cat tags latS lonS : String)
    (hown : CleanStr own) (htags : CleanStr tags) :
    stripList (csvRepRaw own biz cat tags latS lonS) = csvRepRaw own biz cat tags latS lonS := by
  apply stripList_eq_self
  · rw [show csvRepRaw own biz cat tags latS lonS =
        own.data ++ (',' :: biz.data ++ ',' :: latS.data ++ ',' :: lonS.data ++
          ',' :: cat.data ++ ',' :: tags.data) from by simp [csvRepRaw]]
    rw [head?_append_left _ (clean_ne hown)]
    exact (clean_parts hown).2.1
  · rw [csvRepRaw]
    rw [getLast?_append_right _ (show (',' :: tags.data) ≠ [] from by simp)]
    rw [show (',' :: tags.data) = [','] ++ tags.data from rfl]
    rw [getLast?_append_right _ (clean_ne htags)]
    exact (clean_parts htags).2.2.1

theorem csvRepRaw_split (own biz cat tags latS lonS : String)
    (hown : CleanStr own) (hbiz : CleanStr biz) (hcat : CleanStr cat)
    (htags : CleanStr tags) (hlatS : CleanStr latS) (hlonS : CleanStr lonS) :
    splitOnChar ',' (csvRepRaw own biz cat tags latS lonS) =
      [own.data, biz.data, latS.data, lonS.data, cat.data, tags.data] := by
  rw [show csvRepRaw own biz cat tags latS lonS =
      own.data ++ (',' :: (biz.data ++ (',' :: (latS.data ++ (',' :: (lonS.data ++
        (',' :: (cat.data ++ (',' :: tags.data)))))))))
      from by simp [csvRepRaw]]
  rw [splitOnChar_append_sep ',' _ _ (clean_no_comma hown)]
  rw [splitOnChar_append_sep ',' _ _ (clean_no_comma hbiz)]
  rw [splitOnChar_append_sep ',' _ _ (clean_no_comma hlatS)]
  rw [splitOnChar_append_sep ',' _ _ (clean_no_comma hlonS)]
  rw [splitOnChar_append_sep ',' _ _ (clean_no_comma hcat)]
  rw [splitOnChar_no_sep ',' _ (clean_no_comma htags)]

theorem csvLineParse_rep (floatRepr : ℚ → String) (own biz cat tags latS lonS : String)
    (lat lon : ℚ)
    (hown : CleanStr own) (hbiz : CleanStr biz) (hcat : CleanStr cat)
    (htags : CleanStr tags) (hlatS : CleanStr latS) (hlonS : CleanStr lonS)
    (hlat : parseDecimal latS = some lat) (hlon : parseDecimal lonS = some lon)
    (hval : validate_coordinates lat lon = true) :
    csvLineParse floatRepr (csvRepRaw own biz cat tags latS lonS) =
      some (canonicalRecord floatRepr own biz cat tags lat lon) := by
  rw [csvLineParse]
  rw [csvRepRaw_split own biz cat tags latS lonS hown hbiz hcat htags hlatS hlonS]
  rw [show ([own.data, biz.data, latS.data, lonS.data, cat.data, tags.data].map
      (fun p => (⟨stripQuotesList (stripList p)⟩ : String))) = [own, biz, latS, lonS, cat, tags] from by
    simp only [List.map_cons, List.map_nil]
    rw [stripList_clean hown, stripQuotesList_id (clean_no_quote hown),
        stripList_clean hbiz, stripQuotesList_id (clean_no_quote hbiz),
        stripList_clean hlatS, stripQuotesList_id (clean_no_quote hlatS),
        stripList_clean hlonS, stripQuotesList_id (clean_no_quote hlonS),
        stripList_clean hcat, stripQuotesList_id (clean_no_quote hcat),
        stripList_clean htags, stripQuotesList_id (clean_no_quote htags)]]
  rw [if_pos (by simp)]
  rw [csvSixParse]
  rw [show [own, biz, latS, lonS, cat, tags].getD 0 "" = own from rfl,
      show [own, biz, latS, lonS, cat, tags].getD 1 "" = biz from rfl,
      show [own, biz, latS, lonS, cat, tags].getD 2 "" = latS from rfl,
      show [own, biz, latS, lonS, cat, tags].getD 3 "" = lonS from rfl,
      show [own, biz, latS, lonS, cat, tags].getD 4 "" = cat from rfl,
      show [own, biz, latS, lonS, cat, tags].getD 5 "" = tags from rfl]
  rw [if_neg (by simp [beq_eq_false_iff_ne.mpr (clean_ne_str hown),
      beq_eq_false_iff_ne.mpr (clean_ne_str hbiz),
      beq_eq_false_iff_ne.mpr (clean_ne_str hlatS),
      beq_eq_false_iff_ne.mpr (clean_ne_str hlonS),
      beq_eq_false_iff_ne.mpr (clean_ne_str hcat)])]
  rw [hlat, hlon]
  dsimp only
  rw [if_pos hval]
  rfl

theorem parse_csvRep (floatRepr : ℚ → String) (own biz cat tags latS lonS : String)
    (lat lon : ℚ)
    (hown : CleanStr own) (hbiz : CleanStr biz) (hcat : CleanStr cat)
    (htags : CleanStr tags) (hlatS : CleanStr latS) (hlonS : CleanStr lonS)
    (hlat : parseDecimal latS = some lat) (hlon : parseDecimal lonS = some lon)
    (hval : validate_coordinates lat lon = true)
    (hmk : containsL "business_name:".data (csvRepRaw own biz cat tags latS lonS) = false)
    (hhd : containsL "name,business_name,lat_long".data
      (lowerL (csvRepRaw own biz cat tags latS lonS)) = false) :
    parse_business_from_text floatRepr (csvRep own biz cat tags latS lonS) =
      .ok [canonicalRecord floatRepr own biz cat tags lat lon] := by
  have hne := csvRepRaw_ne own biz cat tags latS lonS hown
  have hstripL := csvRepRaw_strip own biz cat tags latS lonS hown htags
  have hstrip : pyStrip ⟨csvRepRaw own biz cat tags latS lonS⟩ =
      ⟨csvRepRaw own biz cat tags latS lonS⟩ := by
    rw [pyStrip, show (⟨csvRepRaw own biz cat tags latS lonS⟩ : String).data =
        csvRepRaw own biz cat tags latS lonS from rfl, hstripL]
  have hcb : csvBranch floatRepr ⟨csvRepRaw own biz cat tags latS lonS⟩ =
      [canonicalRecord floatRepr own biz cat tags lat lon] := by
    rw [csvBranch]
    rw [show (⟨csvRepRaw own biz cat tags latS lonS⟩ : String).data =
        csvRepRaw own biz cat tags latS lonS from rfl]
    rw [splitOnChar_no_sep '\n' _
      (csvRepRaw_no_newline own biz cat tags latS lonS hown hbiz hcat htags hlatS hlonS)]
    rw [List.foldl_cons, List.foldl_nil]
    dsimp only
    rw [hstripL]
    rw [if_neg (by simp [isEmpty_false_of_ne hne])]
    rw [if_neg (by simp [hhd])]
    rw [csvLineParse_rep floatRepr own biz cat tags latS lonS lat lon
      hown hbiz hcat htags hlatS hlonS hlat hlon hval]
    rfl
  have hkvc : kvOrCsv floatRepr ⟨csvRepRaw own biz cat tags latS lonS⟩ =
      csvBranch floatRepr ⟨csvRepRaw own biz cat tags latS lonS⟩ := by
    rw [kvOrCsv]
    rw [show (⟨csvRepRaw own biz cat tags latS lonS⟩ : String).data =
        csvRepRaw own biz cat tags latS lonS from rfl]
    rw [if_neg (by simp [hmk])]
  rw [parse_business_from_text]
  rw [show (csvRep own biz cat tags latS lonS).raw =
      (⟨csvRepRaw own biz cat tags latS lonS⟩ : String) from rfl]
  rw [show (csvRep own biz cat tags latS lonS).asJson = (none : Option PyJson) from rfl]
  rw [hstrip]
  rw [if_neg (by simp [strMk_ne_empty hne])]
  rw [hkvc, hcb]

/-- C8 (amended): for one logical business whose field values are clean
(non-empty, no leading/trailing whitespace, and free of commas, newlines and
double quotes), whose coordinate strings parse to in-range floats, and whose
row triggers neither the key:value-marker check nor the CSV header check, the
JSON-object, key:value-block and comma-delimited-row representations all parse
to the same canonical record.  Without the no-comma restriction the claim is
false (see the counterexample): a comma inside `business_tags` shifts the CSV
columns and truncates the tags. -/
theorem C8_roundtrip (floatRepr : ℚ → String) (own biz cat tags latS lonS : String)
    (lat lon : ℚ)
    (hown : CleanStr own) (hbiz : CleanStr biz) (hcat : CleanStr cat)
    (htags : CleanStr tags) (hlatS : CleanStr latS) (hlonS : CleanStr lonS)
    (hlat : parseDecimal latS = some lat) (hlon : parseDecimal lonS = some lon)
    (hval : validate_coordinates lat lon = true)
    (hmk : containsL "business_name:".data (csvRepRaw own biz cat tags latS lonS) = false)
    (hhd : containsL "name,business_name,lat_long".data
      (lowerL (csvRepRaw own biz cat tags latS lonS)) = false) :
    parse_business_from_text floatRepr (jsonRep floatRepr own biz cat tags latS lonS lat lon) =
      .ok [canonicalRecord floatRepr own biz cat tags lat lon] ∧
    parse_business_from_text floatRepr (kvRep own biz cat tags latS lonS) =
      .ok [canonicalRecord floatRepr own biz cat tags lat lon] ∧
    parse_business_from_text floatRepr (csvRep own biz cat tags latS lonS) =
      .ok [canonicalRecord floatRepr own biz cat tags lat lon] :=
  ⟨parse_jsonRep floatRepr own biz cat tags latS lonS lat lon hown hbiz hcat htags hval,
   parse_kvRep floatRepr own biz cat tags latS lonS lat lon
     hown hbiz hcat htags hlatS hlonS hlat hlon hval,
   parse_csvRep floatRepr own biz cat tags latS lonS lat lon
     hown hbiz hcat htags hlatS hlonS hlat hlon hval hmk hhd⟩

/-- Witness for C8: a concrete clean business (`o`/`B`/`c`/`t`, coordinates
`10`/`20`) parses identically through all three representations. -/
theorem C8_roundtrip_witness :
    parse_business_from_text floatReprX
        (jsonRep floatReprX "o" "B" "c" "t" "10" "20" ((10 : ℕ) : ℚ) ((20 : ℕ) : ℚ)) =
      .ok [canonicalRecord floatReprX "o" "B" "c" "t" ((10 : ℕ) : ℚ) ((20 : ℕ) : ℚ)] ∧
    parse_business_from_text floatReprX (kvRep "o" "B" "c" "t" "10" "20") =
      .ok [canonicalRecord floatReprX "o" "B" "c" "t" ((10 : ℕ) : ℚ) ((20 : ℕ) : ℚ)] ∧
    parse_business_from_text floatReprX (csvRep "o" "B" "c" "t" "10" "20") =
      .ok [canonicalRecord floatReprX "o" "B" "c" "t" ((10 : ℕ) : ℚ) ((20 : ℕ) : ℚ)] :=
  C8_roundtrip floatReprX "o" "B" "c" "t" "10" "20" ((10 : ℕ) : ℚ) ((20 : ℕ) : ℚ)
    rfl rfl rfl rfl rfl rfl (by decide) (by decide) (by decide) (by decide) (by decide)

/-- C8 counterexample: with `business_tags = "wifi, cozy"` (a value the spec
does not exclude) the JSON representation keeps the full tags string while the
comma-delimited row splits into seven columns and truncates the tags to
`"wifi"` — the two canonical records differ, refuting unconditional
round-trip equivalence. -/
theorem C8_counterexample :
    (parse_business_from_text floatReprX
        (jsonRep floatReprX "o" "B" "c" "wifi, cozy" "10" "20" 10 20)).map
      (List.map ParsedBiz.business_tags) = .ok ["wifi, cozy"] ∧
    (parse_business_from_text floatReprX
        (csvRep "o" "B" "c" "wifi, cozy" "10" "20")).map
      (List.map ParsedBiz.business_tags) = .ok ["wifi"] :=
  ⟨rfl, rfl⟩
